import Mathlib

/-!
# Verification of `cmd/apps.go` (flyctl): the `apps create`, `apps destroy` and `apps move` commands

The three command bodies `runAppsCreate`, `runDestroyApp` and `runAppsMove` are
embedded as total functions from an environment (the answers of every external
collaborator: prompts, organization selector, API client, renderer, path
resolver, config writer) and a command context to a `Run`: the ordered list of
observable events, the outcome (returned error value or runtime panic) and the
final value of `ctx.ConfigFile`.
-/

namespace Flyctl

/-! ## Values -/

/-- A Go `error` value: its `Error()` text, and whether it is the terminal
interrupt error recognised by `isInterrupt`. -/
structure Error where
  msg : String
  interrupt : Bool
  deriving DecidableEq

/-- Modelled from the spec: `isInterrupt` lives in package `cmd` outside `apps.go`.
It recognises the user-interrupt error of an interactive prompt; a nil error is
not an interrupt. -/
def isInterrupt : Option Error → Bool
  | none => false
  | some e => e.interrupt

/-- The error built by `fmt.Errorf` with the already formatted text `s`. -/
def Errorf (s : String) : Error := ⟨s, false⟩

/-- The text `fmt` produces for an `error` operand under the verb `%s`: the
error text, or `%!s(<nil>)` for a nil error. -/
def fmtErr : Option Error → String
  | none => "%!s(<nil>)"
  | some e => e.msg

/-- The error built by `errors.Wrap(err, message)`. -/
def Wrap (err : Error) (message : String) : Error := ⟨message ++ ": " ++ err.msg, false⟩

/-- The error built by `errors.WithMessage(err, message)`. -/
def WithMessage (err : Error) (message : String) : Error := ⟨message ++ ": " ++ err.msg, false⟩

/-- Modelled from the spec: `api.Organization` (opaque id and unique slug). -/
structure Organization where
  ID : String
  Slug : String
  deriving DecidableEq

/-- The opaque definition blob carried from the remote application into the local configuration. -/
structure Definition where
  blob : String
  deriving DecidableEq

/-- Modelled from the spec: the configuration embedded in an `api.App`. -/
structure RemoteConfig where
  Definition : Definition
  deriving DecidableEq

/-- Modelled from the spec: `api.App` (name, status, owning organization, embedded configuration). -/
structure App where
  Name : String
  Status : String
  Organization : Organization
  Config : RemoteConfig
  deriving DecidableEq

/-- The build descriptor `flyctl.Build`. -/
structure Build where
  Builder : String
  deriving DecidableEq

/-- Modelled from the spec: `flyctl.AppConfig`, the local configuration document
(application name, optional build descriptor, optional internal service port,
definition blob). -/
structure AppConfig where
  AppName : String
  Build : Option Build
  InternalPort : Option Int
  Definition : Definition
  deriving DecidableEq

/-- Modelled from the spec: `flyctl.NewAppConfig`, the empty configuration. -/
def NewAppConfig : AppConfig := ⟨"", none, none, ⟨""⟩⟩

/-- Modelled from the spec: `(*AppConfig).SetInternalPort`, which records the internal service port. -/
def AppConfig.SetInternalPort (ac : AppConfig) (port : Int) : AppConfig :=
  { ac with InternalPort := some port }

/-! ## `strconv.Atoi` -/

/-- The value of an ASCII decimal digit. -/
def digitVal (c : Char) : Option Nat :=
  if 48 ≤ c.toNat ∧ c.toNat ≤ 57 then some (c.toNat - 48) else none

/-- Accumulate decimal digits, failing at the first character that is not a digit. -/
def parseDigits : List Char → Nat → Option Nat
  | [], acc => some acc
  | c :: cs, acc =>
    match digitVal c with
    | none => none
    | some d => parseDigits cs (acc * 10 + d)

/-- The Go standard library function `strconv.Atoi` for a 64-bit `int`: an optional
sign followed by at least one decimal digit, the value within the `int` range;
`none` is a returned error. -/
def Atoi (s : String) : Option Int :=
  match s.data with
  | [] => none
  | '-' :: ds =>
    if ds = [] then none
    else match parseDigits ds 0 with
      | none => none
      | some n => if n ≤ 2 ^ 63 then some (-(n : Int)) else none
  | '+' :: ds =>
    if ds = [] then none
    else match parseDigits ds 0 with
      | none => none
      | some n => if n < 2 ^ 63 then some (n : Int) else none
  | ds =>
    match parseDigits ds 0 with
    | none => none
    | some n => if n < 2 ^ 63 then some (n : Int) else none

/-! ## Collaborators and events -/

/-- What a call `survey.AskOne(prompt, &response)` did: the value it stored
through the response pointer (if it stored one) and the error it returned. -/
structure AskOutcome (α : Type) where
  answer : Option α
  err : Option Error

/-- The flag store `ctx.Config`. `GetString` also returns an error in Go, which
every call site in `apps.go` discards. -/
structure Config where
  GetString : String → String
  GetBool : String → Bool

/-- The fields of `CmdContext` the three commands read. -/
structure CmdContext where
  Args : List String
  Config : Config
  ConfigFile : String
  WorkingDir : String

/-- The answers of every collaborator the commands call. Each is called at most
once in a run, so a function of the call's arguments covers every behaviour. -/
structure Env where
  askInput : String → AskOutcome String
  askConfirm : String → AskOutcome Bool
  selectOrganization : String → Option Organization × Option Error
  CreateApp : String → String → Option App × Option Error
  GetApp : String → Option App × Option Error
  MoveApp : String → String → Option App × Option Error
  DeleteApp : String → Option Error
  RenderEx : App → Option Error
  ResolveConfigFileFromPath : String → String × Option Error
  writeAppConfig : String → AppConfig → Option Error

/-- The observable steps of a run, in program order. -/
inductive Event where
  | print (text : String)
  | printRed (text : String)
  | askInput (message : String)
  | askConfirm (message : String)
  | selectOrganization (slug : String)
  | CreateApp (name : String) (orgID : String)
  | GetApp (name : String)
  | MoveApp (name : String) (orgID : String)
  | DeleteApp (name : String)
  | RenderEx (app : App)
  | ResolveConfigFileFromPath (dir : String)
  | writeAppConfig (path : String) (cfg : AppConfig)
  deriving DecidableEq

/-- How a command body ended: it returned an `error` value (`none` is nil), or
the Go runtime panicked (index out of range, nil dereference). -/
inductive Outcome where
  | ret (err : Option Error)
  | panic
  deriving DecidableEq

/-- A finished run of a command body. -/
structure Run where
  trace : List Event
  outcome : Outcome
  ConfigFile : String
  deriving DecidableEq

/-- An interactive prompt. -/
def Event.isPrompt : Event → Bool
  | .askInput _ => true
  | .askConfirm _ => true
  | _ => false

/-- A call that reaches the remote control plane: the organization lookup and the API client calls. -/
def Event.isRemote : Event → Bool
  | .selectOrganization _ => true
  | .CreateApp _ _ => true
  | .GetApp _ => true
  | .MoveApp _ _ => true
  | .DeleteApp _ => true
  | _ => false

/-- A step that changes remote or local state: create, move, delete, or the configuration write. -/
def Event.isMutation : Event → Bool
  | .CreateApp _ _ => true
  | .MoveApp _ _ => true
  | .DeleteApp _ => true
  | .writeAppConfig _ _ => true
  | _ => false

/-- The configuration write step. -/
def Event.isWrite : Event → Bool
  | .writeAppConfig _ _ => true
  | _ => false

/-- The config path resolution step. -/
def Event.isResolve : Event → Bool
  | .ResolveConfigFileFromPath _ => true
  | _ => false

/-- A `CreateApp` call. -/
def Event.isCreate : Event → Bool
  | .CreateApp _ _ => true
  | _ => false

/-- A `MoveApp` call. -/
def Event.isMove : Event → Bool
  | .MoveApp _ _ => true
  | _ => false

/-- A `GetApp` call. -/
def Event.isGet : Event → Bool
  | .GetApp _ => true
  | _ => false

/-- A `DeleteApp` call. -/
def Event.isDelete : Event → Bool
  | .DeleteApp _ => true
  | _ => false

/-- The text `sub` occurs in `s`. -/
def Contains (s sub : String) : Prop := sub.data <:+: s.data

instance (s sub : String) : Decidable (Contains s sub) := by
  unfold Contains; infer_instance

/-- Organization resolution failed: the selector returned an error that is not a
cancellation, or it returned no organization and no error. -/
def OrgResolutionFails (r : Option Organization × Option Error) : Prop :=
  (∃ e : Error, r.2 = some e ∧ isInterrupt (some e) = false) ∨ (r.1 = none ∧ r.2 = none)

/-- A prompt the user interrupted instead of answering: `survey.AskOne` stored
no answer and returned the interrupt error. -/
def AskOutcome.interrupted {α : Type} (o : AskOutcome α) : Prop :=
  o.answer = none ∧ isInterrupt o.err = true

/-! ## The command bodies -/

/-- Lines 144-150 of `runDestroyApp`: the delete call and its report. -/
def runDestroyApp.delete (env : Env) (ctx : CmdContext) (appName : String) (tr : List Event) : Run :=
  match env.DeleteApp appName with
  | some err => ⟨tr ++ [.DeleteApp appName], .ret (some err), ctx.ConfigFile⟩
  | none =>
    ⟨tr ++ [.DeleteApp appName, .print ("Destroyed app " ++ appName ++ "\n")], .ret none, ctx.ConfigFile⟩

/-- The body of `runDestroyApp`. -/
def runDestroyApp (env : Env) (ctx : CmdContext) : Run :=
  match ctx.Args with
  | [] => ⟨[], .panic, ctx.ConfigFile⟩
  | appName :: _ =>
    if ¬ ctx.Config.GetBool "yes" = true then
      let message := "Destroy app " ++ appName ++ "?"
      let tr := [Event.printRed "Destroying an app is not reversible.\n", Event.askConfirm message]
      let confirm := (env.askConfirm message).answer.getD false
      if ¬ confirm = true then ⟨tr, .ret none, ctx.ConfigFile⟩
      else runDestroyApp.delete env ctx appName tr
    else runDestroyApp.delete env ctx appName []

/-- Lines 216-242 of `runAppsCreate`: everything after a successful `CreateApp`. -/
def runAppsCreate.persist (env : Env) (ctx : CmdContext) (newAppConfig : AppConfig)
    (configPort : String) (internalPort : Int) (app : App) (tr : List Event) : Run :=
  let newAppConfig := { newAppConfig with AppName := app.Name, Definition := app.Config.Definition }
  let newAppConfig :=
    if configPort ≠ "" then newAppConfig.SetInternalPort internalPort else newAppConfig
  let tr := tr ++ [Event.print "New app created\n", Event.RenderEx app]
  match env.RenderEx app with
  | some err => ⟨tr, .ret (some err), ctx.ConfigFile⟩
  | none =>
    let tr := tr ++ [Event.print (ctx.ConfigFile ++ "\n")]
    if ctx.ConfigFile = "" then
      let tr := tr ++ [Event.ResolveConfigFileFromPath ctx.WorkingDir]
      match (env.ResolveConfigFileFromPath ctx.WorkingDir).2 with
      | some err => ⟨tr, .ret (some err), ctx.ConfigFile⟩
      | none =>
        let newCfgFile := (env.ResolveConfigFileFromPath ctx.WorkingDir).1
        ⟨tr ++ [Event.print (newCfgFile ++ "\n"), Event.writeAppConfig newCfgFile newAppConfig],
          .ret (env.writeAppConfig newCfgFile newAppConfig), newCfgFile⟩
    else
      ⟨tr ++ [Event.print (ctx.ConfigFile ++ "\n"), Event.writeAppConfig ctx.ConfigFile newAppConfig],
        .ret (env.writeAppConfig ctx.ConfigFile newAppConfig), ctx.ConfigFile⟩

/-- Lines 202-215 of `runAppsCreate`: organization selection and the `CreateApp` call. -/
def runAppsCreate.create (env : Env) (ctx : CmdContext) (newAppConfig : AppConfig)
    (configPort : String) (internalPort : Int) (name : String) (tr : List Event) : Run :=
  let targetOrgSlug := ctx.Config.GetString "org"
  let org := (env.selectOrganization targetOrgSlug).1
  let err := (env.selectOrganization targetOrgSlug).2
  let tr := tr ++ [Event.selectOrganization targetOrgSlug]
  if isInterrupt err = true then ⟨tr, .ret none, ctx.ConfigFile⟩
  else if err ≠ none ∨ org = none then
    ⟨tr, .ret (some (Errorf ("Error setting organization: " ++ fmtErr err))), ctx.ConfigFile⟩
  else
    match org with
    | none => ⟨tr, .panic, ctx.ConfigFile⟩
    | some org =>
      let tr := tr ++ [Event.CreateApp name org.ID]
      match (env.CreateApp name org.ID).2, (env.CreateApp name org.ID).1 with
      | some err, _ => ⟨tr, .ret (some err), ctx.ConfigFile⟩
      | none, none => ⟨tr, .panic, ctx.ConfigFile⟩
      | none, some app => runAppsCreate.persist env ctx newAppConfig configPort internalPort app tr

/-- Lines 154-159 of `runAppsCreate`: the positional app name, `ctx.Args[0]` when
an argument is present and the empty string otherwise. -/
def runAppsCreate.appName : List String → String
  | [] => ""
  | a :: _ => a

/-- Lines 173-177 of `runAppsCreate`: the new configuration, with a build
descriptor when the `builder` flag is non-empty. -/
def runAppsCreate.newAppConfig (ctx : CmdContext) : AppConfig :=
  let newAppConfig := NewAppConfig
  let builder := ctx.Config.GetString "builder"
  if builder ≠ "" then { newAppConfig with Build := some ⟨builder⟩ } else newAppConfig

/-- The body of `runAppsCreate`. -/
def runAppsCreate (env : Env) (ctx : CmdContext) : Run :=
  let appName := runAppsCreate.appName ctx.Args
  let configPort := ctx.Config.GetString "port"
  match (if configPort ≠ "" then Atoi configPort else some 0) with
  | none => ⟨[], .ret (some (Errorf "-p ports must be numeric")), ctx.ConfigFile⟩
  | some internalPort =>
    let newAppConfig := runAppsCreate.newAppConfig ctx
    let name := ctx.Config.GetString "name"
    if name ≠ "" ∧ appName ≠ "" then
      ⟨[], .ret (some (Errorf ("two app names specified " ++ appName ++ " and " ++ name
        ++ ". Select and specify only one"))), ctx.ConfigFile⟩
    else
      let name := if name = "" ∧ appName ≠ "" then appName else name
      if name = "" then
        let message := "App Name (leave blank to use an auto-generated name)"
        let asked := env.askInput message
        let name := asked.answer.getD name
        if asked.err ≠ none ∧ isInterrupt asked.err = true then
          ⟨[Event.askInput message], .ret none, ctx.ConfigFile⟩
        else
          runAppsCreate.create env ctx newAppConfig configPort internalPort name [Event.askInput message]
      else
        runAppsCreate.create env ctx newAppConfig configPort internalPort name
          [Event.print ("Selected App Name: " ++ name ++ "\n")]

/-- Lines 277-284 of `runAppsMove`: the move call and its report. -/
def runAppsMove.move (env : Env) (ctx : CmdContext) (appName : String) (org : Organization)
    (tr : List Event) : Run :=
  let tr := tr ++ [Event.MoveApp appName org.ID]
  match (env.MoveApp appName org.ID).2 with
  | some err => ⟨tr, .ret (some (WithMessage err "Failed to move app")), ctx.ConfigFile⟩
  | none =>
    ⟨tr ++ [Event.print ("Successfully moved " ++ appName ++ " to " ++ org.Slug ++ "\n")],
      .ret none, ctx.ConfigFile⟩

/-- The body of `runAppsMove`. -/
def runAppsMove (env : Env) (ctx : CmdContext) : Run :=
  match ctx.Args with
  | [] => ⟨[], .panic, ctx.ConfigFile⟩
  | appName :: _ =>
    let targetOrgSlug := ctx.Config.GetString "org"
    let org := (env.selectOrganization targetOrgSlug).1
    let err := (env.selectOrganization targetOrgSlug).2
    let tr := [Event.selectOrganization targetOrgSlug]
    if isInterrupt err = true then ⟨tr, .ret none, ctx.ConfigFile⟩
    else if err ≠ none ∨ org = none then
      ⟨tr, .ret (some (Errorf ("Error setting organization: " ++ fmtErr err))), ctx.ConfigFile⟩
    else
      match org with
      | none => ⟨tr, .panic, ctx.ConfigFile⟩
      | some org =>
        let tr := tr ++ [Event.GetApp appName]
        match (env.GetApp appName).2 with
        | some err => ⟨tr, .ret (some (Wrap err "Error fetching app")), ctx.ConfigFile⟩
        | none =>
          if ¬ ctx.Config.GetBool "yes" = true then
            match (env.GetApp appName).1 with
            | none => ⟨tr ++ [Event.printRed "Are you sure you want to move this app?\n"], .panic,
                ctx.ConfigFile⟩
            | some app =>
              let message := "Move " ++ appName ++ " from " ++ app.Organization.Slug ++ " to "
                ++ org.Slug ++ "?"
              let tr := tr ++ [Event.printRed "Are you sure you want to move this app?\n",
                Event.askConfirm message]
              let confirm := (env.askConfirm message).answer.getD false
              if ¬ confirm = true then ⟨tr, .ret none, ctx.ConfigFile⟩
              else runAppsMove.move env ctx appName org tr
          else runAppsMove.move env ctx appName org tr

/-! ## Scripted collaborators for concrete runs -/

/-- A flag store built from a list of string flags and the value of `yes`; an unset flag reads as empty. -/
def flagStore (flags : List (String × String)) (yes : Bool) : Config where
  GetString := fun k => (flags.lookup k).getD ""
  GetBool := fun k => if k = "yes" then yes else false

/-- The organization the scripted selector knows for a slug. -/
def scriptedOrg (slug : String) : Option Organization :=
  if slug = "acme" then some ⟨"acme-org-id", "acme"⟩
  else if slug = "other" then some ⟨"other-org-id", "other"⟩
  else none

/-- A scripted environment in which every collaborator succeeds: the selector
knows the slugs `acme` and `other`, `CreateApp` returns an application of the
requested name, `GetApp` reports an application owned by `acme`, and both
prompts are answered as given. -/
def scriptedEnv (nameAnswer : AskOutcome String) (confirmAnswer : AskOutcome Bool) : Env where
  askInput := fun _ => nameAnswer
  askConfirm := fun _ => confirmAnswer
  selectOrganization := fun slug => (scriptedOrg slug, none)
  CreateApp := fun name orgID => (some ⟨name, "pending", ⟨orgID, "acme"⟩, ⟨⟨"services"⟩⟩⟩, none)
  GetApp := fun name => (some ⟨name, "running", ⟨"acme-org-id", "acme"⟩, ⟨⟨"services"⟩⟩⟩, none)
  MoveApp := fun name orgID => (some ⟨name, "running", ⟨orgID, "other"⟩, ⟨⟨"services"⟩⟩⟩, none)
  DeleteApp := fun _ => none
  RenderEx := fun _ => none
  ResolveConfigFileFromPath := fun dir => (dir ++ "/fly.toml", none)
  writeAppConfig := fun _ _ => none

/-- The prompt outcome of a user who pressed the interrupt key: nothing stored, the interrupt error returned. -/
def interrupted (α : Type) : AskOutcome α := ⟨none, some ⟨"interrupt", true⟩⟩

/-- The prompt outcome of a prompt that broke with an error other than an interrupt, nothing stored. -/
def broken (α : Type) (msg : String) : AskOutcome α := ⟨none, some ⟨msg, false⟩⟩

/-- The scripted environment with a control plane that rejects every `CreateApp`. -/
def rejectingEnv (nameAnswer : AskOutcome String) (confirmAnswer : AskOutcome Bool) : Env :=
  { scriptedEnv nameAnswer confirmAnswer with
    CreateApp := fun _ _ => (none, some ⟨"Name has already been taken", false⟩) }

/-- The scripted environment with an organization selection the user interrupts. -/
def cancellingEnv (nameAnswer : AskOutcome String) (confirmAnswer : AskOutcome Bool) : Env :=
  { scriptedEnv nameAnswer confirmAnswer with
    selectOrganization := fun _ => (none, some ⟨"interrupt", true⟩) }

/-- The scripted environment with a control plane on which `GetApp` finds no application. -/
def unknownAppEnv (nameAnswer : AskOutcome String) (confirmAnswer : AskOutcome Bool) : Env :=
  { scriptedEnv nameAnswer confirmAnswer with
    GetApp := fun _ => (none, some ⟨"Could not resolve App", false⟩) }

/-- The prompt outcome of a user who answered `a`. -/
def answered {α : Type} (a : α) : AskOutcome α := ⟨some a, none⟩

/-- A command context with the given positional arguments and flags, no config file yet, run in `/work`. -/
def invocation (args : List String) (flags : List (String × String)) (yes : Bool) : CmdContext :=
  ⟨args, flagStore flags yes, "", "/work"⟩

/-! ## Lemmas on the text of error messages -/

theorem contains_append_self (a sub : String) : Contains (a ++ sub) sub := by
  unfold Contains
  exact ⟨a.data, [], by simp [String.data_append]⟩

theorem contains_append_right (s t sub : String) (h : Contains s sub) : Contains (s ++ t) sub := by
  unfold Contains at *
  obtain ⟨p, q, hpq⟩ := h
  exact ⟨p, q ++ t.data, by simp [String.data_append, ← hpq]⟩

/-! ## Lemmas on traces -/

theorem isCreate_isMutation (ev : Event) (h : ev.isMutation = false) : ev.isCreate = false := by
  cases ev <;> simp_all [Event.isMutation, Event.isCreate]

theorem isWrite_isMutation (ev : Event) (h : ev.isMutation = false) : ev.isWrite = false := by
  cases ev <;> simp_all [Event.isMutation, Event.isWrite]

/-- A stretch of the trace without mutations holds no `CreateApp` call and no configuration write. -/
theorem filter_quiet (mid : List Event) (hq : ∀ ev ∈ mid, ev.isMutation = false) :
    mid.filter Event.isCreate = [] ∧ mid.filter Event.isWrite = [] := by
  constructor
  · rw [List.filter_eq_nil_iff]
    intro ev hev
    simp [isCreate_isMutation ev (hq ev hev)]
  · rw [List.filter_eq_nil_iff]
    intro ev hev
    simp [isWrite_isMutation ev (hq ev hev)]

/-- When a list ends in its only write step, any split of the list at a write step is the split at its end. -/
theorem split_at_final_write (a : List Event) (w : Event) (ha : ∀ ev ∈ a, ev.isWrite = false) :
    ∀ (pre post : List Event) (x : Event), x.isWrite = true → a ++ [w] = pre ++ x :: post →
      pre = a := by
  induction a with
  | nil =>
    intro pre post x _ h
    cases pre with
    | nil => rfl
    | cons z pre2 =>
      simp at h
  | cons y a2 ih =>
    intro pre post x hx h
    cases pre with
    | nil =>
      simp at h
      have := ha y (by simp)
      rw [h.1, hx] at this
      exact absurd this (by decide)
    | cons z pre2 =>
      simp at h
      rw [h.1, ih (fun ev hev => ha ev (by simp [hev])) pre2 post x hx h.2]

/-! ## The runs of `create`, stage by stage -/

/-- The run of `create` when the positional name and the `name` flag are both given and the port validates. -/
theorem runAppsCreate_conflict_run (env : Env) (ctx : CmdContext) (appName : String)
    (rest : List String) (hargs : ctx.Args = appName :: rest) (hpos : appName ≠ "")
    (hname : ctx.Config.GetString "name" ≠ "")
    (hport : ctx.Config.GetString "port" = "" ∨ Atoi (ctx.Config.GetString "port") ≠ none) :
    runAppsCreate env ctx = ⟨[], Outcome.ret (some (Errorf ("two app names specified " ++ appName
      ++ " and " ++ ctx.Config.GetString "name" ++ ". Select and specify only one"))),
      ctx.ConfigFile⟩ := by
  rcases hport with h | h
  · simp [runAppsCreate, runAppsCreate.appName, hargs, hpos, hname, h]
  · cases hn : Atoi (ctx.Config.GetString "port") with
    | none => exact absurd hn h
    | some q =>
      by_cases hp : ctx.Config.GetString "port" = "" <;>
        simp [runAppsCreate, runAppsCreate.appName, hargs, hpos, hname, hn, hp]

/-- The run of `create` when the `port` flag is non-empty and `strconv.Atoi` rejects it. -/
theorem runAppsCreate_bad_port_run (env : Env) (ctx : CmdContext)
    (hport : ctx.Config.GetString "port" ≠ "") (hparse : Atoi (ctx.Config.GetString "port") = none) :
    runAppsCreate env ctx
      = ⟨[], Outcome.ret (some (Errorf "-p ports must be numeric")), ctx.ConfigFile⟩ := by
  simp [runAppsCreate, hport, hparse]

/-- The run of `create` when the name prompt is reached and is not interrupted. -/
theorem runAppsCreate_prompted_run (env : Env) (ctx : CmdContext) (p : Int)
    (hport : (if ctx.Config.GetString "port" ≠ "" then Atoi (ctx.Config.GetString "port")
      else some 0) = some p)
    (hflag : ctx.Config.GetString "name" = "") (hpos : runAppsCreate.appName ctx.Args = "")
    (hi : isInterrupt (env.askInput "App Name (leave blank to use an auto-generated name)").err
      = false) :
    runAppsCreate env ctx
      = runAppsCreate.create env ctx (runAppsCreate.newAppConfig ctx) (ctx.Config.GetString "port") p
          ((env.askInput "App Name (leave blank to use an auto-generated name)").answer.getD "")
          [Event.askInput "App Name (leave blank to use an auto-generated name)"] := by
  unfold runAppsCreate
  simp only [hport, hflag, hpos, hi]
  simp

/-- The run of `create` when the name prompt is reached and interrupted. -/
theorem runAppsCreate_prompt_interrupted_run (env : Env) (ctx : CmdContext) (p : Int)
    (hport : (if ctx.Config.GetString "port" ≠ "" then Atoi (ctx.Config.GetString "port")
      else some 0) = some p)
    (hflag : ctx.Config.GetString "name" = "") (hpos : runAppsCreate.appName ctx.Args = "")
    (hi : isInterrupt (env.askInput "App Name (leave blank to use an auto-generated name)").err
      = true) :
    runAppsCreate env ctx
      = ⟨[Event.askInput "App Name (leave blank to use an auto-generated name)"],
          Outcome.ret none, ctx.ConfigFile⟩ := by
  have hne : (env.askInput "App Name (leave blank to use an auto-generated name)").err ≠ none := by
    intro h
    rw [h] at hi
    simp [isInterrupt] at hi
  unfold runAppsCreate
  simp only [hport, hflag, hpos, hi]
  simp [hne]

/-- The run of `create` when exactly one of the positional name and the `name` flag is given. -/
theorem runAppsCreate_named_run (env : Env) (ctx : CmdContext) (p : Int)
    (hport : (if ctx.Config.GetString "port" ≠ "" then Atoi (ctx.Config.GetString "port")
      else some 0) = some p)
    (hone : ctx.Config.GetString "name" = "" ∨ runAppsCreate.appName ctx.Args = "")
    (hsome : ¬ (ctx.Config.GetString "name" = "" ∧ runAppsCreate.appName ctx.Args = "")) :
    runAppsCreate env ctx
      = runAppsCreate.create env ctx (runAppsCreate.newAppConfig ctx) (ctx.Config.GetString "port") p
          (if ctx.Config.GetString "name" = "" then runAppsCreate.appName ctx.Args
            else ctx.Config.GetString "name")
          [Event.print ("Selected App Name: "
            ++ (if ctx.Config.GetString "name" = "" then runAppsCreate.appName ctx.Args
              else ctx.Config.GetString "name") ++ "\n")] := by
  unfold runAppsCreate
  simp only [hport]
  by_cases hflag : ctx.Config.GetString "name" = ""
  · have hpos : runAppsCreate.appName ctx.Args ≠ "" := fun h => hsome ⟨hflag, h⟩
    simp [hflag, hpos]
  · have hpos : runAppsCreate.appName ctx.Args = "" := hone.resolve_left hflag
    simp [hflag, hpos]

/-- Every run of `create` either fails validation before any step, or is
cancelled at the name prompt, or continues into the organization stage after a
single prompt or print step. -/
theorem runAppsCreate_stages (env : Env) (ctx : CmdContext) :
    (∃ e : Error, runAppsCreate env ctx = ⟨[], Outcome.ret (some e), ctx.ConfigFile⟩)
    ∨ (runAppsCreate env ctx
        = ⟨[Event.askInput "App Name (leave blank to use an auto-generated name)"],
            Outcome.ret none, ctx.ConfigFile⟩
      ∧ isInterrupt (env.askInput "App Name (leave blank to use an auto-generated name)").err
          = true)
    ∨ ∃ (p : Int) (name : String) (tr : List Event),
        runAppsCreate env ctx
          = runAppsCreate.create env ctx (runAppsCreate.newAppConfig ctx)
              (ctx.Config.GetString "port") p name tr
        ∧ ((tr = [Event.askInput "App Name (leave blank to use an auto-generated name)"]
            ∧ isInterrupt (env.askInput "App Name (leave blank to use an auto-generated name)").err
                = false)
            ∨ ∃ s : String, tr = [Event.print s]) := by
  cases hparse : (if ctx.Config.GetString "port" ≠ "" then Atoi (ctx.Config.GetString "port")
      else some 0) with
  | none =>
    left
    refine ⟨Errorf "-p ports must be numeric", ?_⟩
    unfold runAppsCreate
    simp only [hparse]
  | some p =>
    by_cases hflag : ctx.Config.GetString "name" = "" <;>
      by_cases hpos : runAppsCreate.appName ctx.Args = ""
    · cases hi : isInterrupt
          (env.askInput "App Name (leave blank to use an auto-generated name)").err
      · right; right
        exact ⟨p, _, _, runAppsCreate_prompted_run env ctx p hparse hflag hpos hi, Or.inl ⟨rfl, rfl⟩⟩
      · right; left
        exact ⟨runAppsCreate_prompt_interrupted_run env ctx p hparse hflag hpos hi, rfl⟩
    · right; right
      exact ⟨p, _, _, runAppsCreate_named_run env ctx p hparse (Or.inl hflag)
        (fun h => hpos h.2), Or.inr ⟨_, rfl⟩⟩
    · right; right
      exact ⟨p, _, _, runAppsCreate_named_run env ctx p hparse (Or.inr hpos)
        (fun h => hflag h.1), Or.inr ⟨_, rfl⟩⟩
    · left
      refine ⟨Errorf ("two app names specified " ++ runAppsCreate.appName ctx.Args ++ " and "
        ++ ctx.Config.GetString "name" ++ ". Select and specify only one"), ?_⟩
      unfold runAppsCreate
      simp only [hparse]
      simp [hflag, hpos]

/-- The organization stage of `create` when resolution fails. -/
theorem create_stage_of_failed_resolution (env : Env) (ctx : CmdContext) (cfg : AppConfig)
    (port : String) (p : Int) (name : String) (tr : List Event)
    (hfail : OrgResolutionFails (env.selectOrganization (ctx.Config.GetString "org"))) :
    runAppsCreate.create env ctx cfg port p name tr
      = ⟨tr ++ [Event.selectOrganization (ctx.Config.GetString "org")],
          Outcome.ret (some (Errorf ("Error setting organization: "
            ++ fmtErr (env.selectOrganization (ctx.Config.GetString "org")).2))),
          ctx.ConfigFile⟩ := by
  rcases hfail with ⟨e, he, hi⟩ | ⟨ho, he⟩
  · have hi2 : e.interrupt = false := by simpa [isInterrupt] using hi
    simp [runAppsCreate.create, he, isInterrupt, hi2]
  · simp [runAppsCreate.create, he, ho, isInterrupt]

/-- The organization stage of `create` when the selector is cancelled. -/
theorem create_stage_of_cancelled_selection (env : Env) (ctx : CmdContext) (cfg : AppConfig)
    (port : String) (p : Int) (name : String) (tr : List Event)
    (hint : isInterrupt (env.selectOrganization (ctx.Config.GetString "org")).2 = true) :
    runAppsCreate.create env ctx cfg port p name tr
      = ⟨tr ++ [Event.selectOrganization (ctx.Config.GetString "org")], Outcome.ret none,
          ctx.ConfigFile⟩ := by
  simp [runAppsCreate.create, hint]

/-- Every run of the persist stage of `create` either stops at a render or path
resolution error, having written nothing, or ends with the single write of the
configuration built from the prepared configuration and the application
`CreateApp` returned. -/
theorem persist_stage_shape (env : Env) (ctx : CmdContext) (cfg : AppConfig) (port : String)
    (p : Int) (app : App) (tr : List Event) :
    (∃ (mid : List Event) (e : Error),
        runAppsCreate.persist env ctx cfg port p app tr
          = ⟨tr ++ mid, Outcome.ret (some e), ctx.ConfigFile⟩
        ∧ (env.RenderEx app = some e
            ∨ (ctx.ConfigFile = "" ∧ (env.ResolveConfigFileFromPath ctx.WorkingDir).2 = some e))
        ∧ ∀ ev ∈ mid, ev.isMutation = false ∧ ev.isPrompt = false ∧ ev.isRemote = false)
    ∨ (∃ mid : List Event,
        runAppsCreate.persist env ctx cfg port p app tr
          = ⟨tr ++ mid ++ [Event.writeAppConfig
                (if ctx.ConfigFile = "" then (env.ResolveConfigFileFromPath ctx.WorkingDir).1
                  else ctx.ConfigFile)
                ⟨app.Name, cfg.Build, if port ≠ "" then some p else cfg.InternalPort,
                  app.Config.Definition⟩],
              Outcome.ret (env.writeAppConfig
                (if ctx.ConfigFile = "" then (env.ResolveConfigFileFromPath ctx.WorkingDir).1
                  else ctx.ConfigFile)
                ⟨app.Name, cfg.Build, if port ≠ "" then some p else cfg.InternalPort,
                  app.Config.Definition⟩),
              if ctx.ConfigFile = "" then (env.ResolveConfigFileFromPath ctx.WorkingDir).1
                else ctx.ConfigFile⟩
        ∧ env.RenderEx app = none
        ∧ (ctx.ConfigFile = "" → (env.ResolveConfigFileFromPath ctx.WorkingDir).2 = none)
        ∧ ∀ ev ∈ mid, ev.isMutation = false ∧ ev.isPrompt = false ∧ ev.isRemote = false) := by
  cases hr : env.RenderEx app with
  | some e =>
    left
    refine ⟨[Event.print "New app created\n", Event.RenderEx app], e, ?_, Or.inl rfl, ?_⟩
    · simp [runAppsCreate.persist, hr]
    · simp [Event.isMutation, Event.isPrompt, Event.isRemote]
  | none =>
    by_cases hcf : ctx.ConfigFile = ""
    · cases hres : (env.ResolveConfigFileFromPath ctx.WorkingDir).2 with
      | some e =>
        left
        refine ⟨[Event.print "New app created\n", Event.RenderEx app,
          Event.print (ctx.ConfigFile ++ "\n"),
          Event.ResolveConfigFileFromPath ctx.WorkingDir], e, ?_, Or.inr ⟨hcf, rfl⟩, ?_⟩
        · simp [runAppsCreate.persist, hr, hcf, hres]
        · simp [Event.isMutation, Event.isPrompt, Event.isRemote]
      | none =>
        right
        refine ⟨[Event.print "New app created\n", Event.RenderEx app,
          Event.print (ctx.ConfigFile ++ "\n"),
          Event.ResolveConfigFileFromPath ctx.WorkingDir,
          Event.print ((env.ResolveConfigFileFromPath ctx.WorkingDir).1 ++ "\n")], ?_, rfl,
          fun _ => rfl, ?_⟩
        · by_cases hp : port = "" <;>
            simp [runAppsCreate.persist, hr, hcf, hres, hp, AppConfig.SetInternalPort]
        · simp [Event.isMutation, Event.isPrompt, Event.isRemote]
    · right
      refine ⟨[Event.print "New app created\n", Event.RenderEx app,
        Event.print (ctx.ConfigFile ++ "\n"), Event.print (ctx.ConfigFile ++ "\n")], ?_, rfl,
        fun h => absurd h hcf, ?_⟩
      · by_cases hp : port = "" <;>
          simp [runAppsCreate.persist, hr, hcf, hp, AppConfig.SetInternalPort]
      · simp [Event.isMutation, Event.isPrompt, Event.isRemote]

/-- Every run of the organization stage of `create` stops at the selector, or
stops at a failed `CreateApp`, or continues into the persist stage after a
successful `CreateApp`. -/
theorem create_stage_shape (env : Env) (ctx : CmdContext) (cfg : AppConfig) (port : String)
    (p : Int) (name : String) (tr : List Event) :
    ((runAppsCreate.create env ctx cfg port p name tr).trace
          = tr ++ [Event.selectOrganization (ctx.Config.GetString "org")]
        ∧ (runAppsCreate.create env ctx cfg port p name tr).ConfigFile = ctx.ConfigFile
        ∧ ((isInterrupt (env.selectOrganization (ctx.Config.GetString "org")).2 = true
            ∧ (runAppsCreate.create env ctx cfg port p name tr).outcome = Outcome.ret none)
          ∨ (OrgResolutionFails (env.selectOrganization (ctx.Config.GetString "org"))
            ∧ (runAppsCreate.create env ctx cfg port p name tr).outcome
                = Outcome.ret (some (Errorf ("Error setting organization: "
                    ++ fmtErr (env.selectOrganization (ctx.Config.GetString "org")).2))))))
    ∨ (∃ org : Organization,
        env.selectOrganization (ctx.Config.GetString "org") = (some org, none)
        ∧ (runAppsCreate.create env ctx cfg port p name tr).trace
            = tr ++ [Event.selectOrganization (ctx.Config.GetString "org"),
                Event.CreateApp name org.ID]
        ∧ (runAppsCreate.create env ctx cfg port p name tr).ConfigFile = ctx.ConfigFile
        ∧ ((∃ e : Error, (env.CreateApp name org.ID).2 = some e
              ∧ (runAppsCreate.create env ctx cfg port p name tr).outcome = Outcome.ret (some e))
          ∨ (env.CreateApp name org.ID = (none, none)
              ∧ (runAppsCreate.create env ctx cfg port p name tr).outcome = Outcome.panic)))
    ∨ (∃ (org : Organization) (app : App),
        env.selectOrganization (ctx.Config.GetString "org") = (some org, none)
        ∧ env.CreateApp name org.ID = (some app, none)
        ∧ runAppsCreate.create env ctx cfg port p name tr
            = runAppsCreate.persist env ctx cfg port p app
                (tr ++ [Event.selectOrganization (ctx.Config.GetString "org"),
                  Event.CreateApp name org.ID])) := by
  rcases hsel : env.selectOrganization (ctx.Config.GetString "org") with ⟨org, err⟩
  cases err with
  | some e =>
    left
    cases hi : e.interrupt
    · refine ⟨?_, ?_, Or.inr ⟨Or.inl ⟨e, rfl, by simp [isInterrupt, hi]⟩, ?_⟩⟩ <;>
        simp [runAppsCreate.create, hsel, isInterrupt, hi]
    · refine ⟨?_, ?_, Or.inl ⟨by simp [isInterrupt, hi], ?_⟩⟩ <;>
        simp [runAppsCreate.create, hsel, isInterrupt, hi]
  | none =>
    cases org with
    | none =>
      left
      refine ⟨?_, ?_, Or.inr ⟨Or.inr ⟨rfl, rfl⟩, ?_⟩⟩ <;>
        simp [runAppsCreate.create, hsel, isInterrupt]
    | some org =>
      right
      rcases hc : env.CreateApp name org.ID with ⟨app, cerr⟩
      cases cerr with
      | some e =>
        left
        refine ⟨org, rfl, ?_, ?_, Or.inl ⟨e, by rw [hc], ?_⟩⟩ <;>
          simp [runAppsCreate.create, hsel, isInterrupt, hc]
      | none =>
        cases app with
        | none =>
          left
          refine ⟨org, rfl, ?_, ?_, Or.inr ⟨hc, ?_⟩⟩ <;>
            simp [runAppsCreate.create, hsel, isInterrupt, hc]
        | some app =>
          right
          refine ⟨org, app, rfl, hc, ?_⟩
          simp [runAppsCreate.create, hsel, isInterrupt, hc]

/-- The organization stage of `create` shows no prompt of its own. -/
theorem create_stage_prompt_free (env : Env) (ctx : CmdContext) (cfg : AppConfig) (port : String)
    (p : Int) (name : String) (tr : List Event) (ev : Event)
    (hmem : ev ∈ (runAppsCreate.create env ctx cfg port p name tr).trace)
    (hprompt : ev.isPrompt = true) : ev ∈ tr := by
  rcases create_stage_shape env ctx cfg port p name tr with
    ⟨h, -⟩ | ⟨org, -, h, -⟩ | ⟨org, app, -, -, h⟩
  · rw [h] at hmem
    rcases List.mem_append.mp hmem with hm | hm
    · exact hm
    · simp at hm
      subst hm
      simp [Event.isPrompt] at hprompt
  · rw [h] at hmem
    rcases List.mem_append.mp hmem with hm | hm
    · exact hm
    · simp at hm
      rcases hm with hm | hm <;> subst hm <;> simp [Event.isPrompt] at hprompt
  · rw [h] at hmem
    have key : ∀ mid : List Event, (∀ x ∈ mid, x.isMutation = false ∧ x.isPrompt = false
        ∧ x.isRemote = false) → ev ∈ mid → False := by
      intro mid hq hm
      have := (hq ev hm).2.1
      rw [hprompt] at this
      exact absurd this (by decide)
    rcases persist_stage_shape env ctx cfg port p app
        (tr ++ [Event.selectOrganization (ctx.Config.GetString "org"),
          Event.CreateApp name org.ID]) with ⟨mid, e, h2, -, hq⟩ | ⟨mid, h2, -, -, hq⟩
    · rw [h2] at hmem
      simp only [List.mem_append, List.mem_cons, List.mem_singleton] at hmem
      rcases hmem with (hm | hm) | hm
      · exact hm
      · simp at hm
        rcases hm with hm | hm <;> subst hm <;> simp [Event.isPrompt] at hprompt
      · exact (key mid hq hm).elim
    · rw [h2] at hmem
      simp only [List.mem_append, List.mem_cons, List.mem_singleton] at hmem
      rcases hmem with ((hm | hm) | hm) | hm
      · exact hm
      · simp at hm
        rcases hm with hm | hm <;> subst hm <;> simp [Event.isPrompt] at hprompt
      · exact (key mid hq hm).elim
      · simp at hm
        subst hm
        simp [Event.isPrompt] at hprompt

/-- The overall shape of a run of `create`: a prefix without mutation or path
resolution, then either nothing more, or a failed `CreateApp` as the last step,
or a successful `CreateApp` followed by steps without mutation and possibly one
final configuration write. -/
theorem runAppsCreate_shape (env : Env) (ctx : CmdContext) :
    ∃ pre : List Event, (∀ ev ∈ pre, ev.isMutation = false ∧ ev.isResolve = false)
      ∧ (((runAppsCreate env ctx).trace = pre ∧ (runAppsCreate env ctx).ConfigFile = ctx.ConfigFile)
        ∨ (∃ (name orgID : String),
            (runAppsCreate env ctx).trace = pre ++ [Event.CreateApp name orgID]
            ∧ (runAppsCreate env ctx).ConfigFile = ctx.ConfigFile
            ∧ ((∃ e : Error, (env.CreateApp name orgID).2 = some e
                  ∧ (runAppsCreate env ctx).outcome = Outcome.ret (some e))
              ∨ (env.CreateApp name orgID = (none, none)
                  ∧ (runAppsCreate env ctx).outcome = Outcome.panic)))
        ∨ (∃ (name orgID : String) (app : App) (mid : List Event),
            env.CreateApp name orgID = (some app, none)
            ∧ (∀ ev ∈ mid, ev.isMutation = false)
            ∧ ((runAppsCreate env ctx).trace = pre ++ Event.CreateApp name orgID :: mid
              ∨ ∃ (path : String) (cfg : AppConfig),
                  (runAppsCreate env ctx).trace
                    = pre ++ Event.CreateApp name orgID
                        :: (mid ++ [Event.writeAppConfig path cfg])))) := by
  rcases runAppsCreate_stages env ctx with ⟨e, h⟩ | ⟨h, -⟩ | ⟨p, name, tr, h, htr⟩
  · exact ⟨[], by simp, Or.inl (by simp [h])⟩
  · exact ⟨[Event.askInput "App Name (leave blank to use an auto-generated name)"],
      by simp [Event.isMutation, Event.isResolve], Or.inl (by simp [h])⟩
  · have htrq : ∀ ev ∈ tr, ev.isMutation = false ∧ ev.isResolve = false := by
      rcases htr with ⟨htr, -⟩ | ⟨s, htr⟩ <;> simp [htr, Event.isMutation, Event.isResolve]
    have hpre : ∀ ev ∈ tr ++ [Event.selectOrganization (ctx.Config.GetString "org")],
        ev.isMutation = false ∧ ev.isResolve = false := by
      intro ev hev
      rcases List.mem_append.mp hev with hm | hm
      · exact htrq ev hm
      · simp at hm
        subst hm
        simp [Event.isMutation, Event.isResolve]
    refine ⟨tr ++ [Event.selectOrganization (ctx.Config.GetString "org")], hpre, ?_⟩
    rw [h]
    rcases create_stage_shape env ctx (runAppsCreate.newAppConfig ctx) (ctx.Config.GetString "port")
        p name tr with ⟨ht, hc, -⟩ | ⟨org, -, ht, hc, hout⟩ | ⟨org, app, -, hcr, hrun⟩
    · exact Or.inl ⟨ht, hc⟩
    · right; left
      exact ⟨name, org.ID, by simp [ht], hc, hout⟩
    · right; right
      rw [hrun]
      rcases persist_stage_shape env ctx (runAppsCreate.newAppConfig ctx)
          (ctx.Config.GetString "port") p app
          (tr ++ [Event.selectOrganization (ctx.Config.GetString "org"),
            Event.CreateApp name org.ID]) with ⟨mid, e, h2, -, hq⟩ | ⟨mid, h2, -, -, hq⟩
      · exact ⟨name, org.ID, app, mid, hcr, fun ev hev => (hq ev hev).1, Or.inl (by simp [h2])⟩
      · exact ⟨name, org.ID, app, mid, hcr, fun ev hev => (hq ev hev).1,
          Or.inr ⟨_, _, by rw [h2]; simp only [List.append_assoc, List.cons_append,
            List.nil_append]; rfl⟩⟩

/-! ## Input validation in `create` -/

/-- C1: when the positional app name and the `name` flag are both non-empty and
the `port` flag is empty or numeric, `runAppsCreate` returns an error whose
message contains both names, having performed no step at all (empty trace: no
organization lookup, no `CreateApp`, no prompt, no configuration write), and
`ctx.ConfigFile` is unchanged. -/
theorem runAppsCreate_conflicting_names (env : Env) (ctx : CmdContext) (appName : String)
    (rest : List String) (hargs : ctx.Args = appName :: rest) (hpos : appName ≠ "")
    (hname : ctx.Config.GetString "name" ≠ "")
    (hport : ctx.Config.GetString "port" = "" ∨ Atoi (ctx.Config.GetString "port") ≠ none) :
    ∃ e : Error, (runAppsCreate env ctx).outcome = Outcome.ret (some e)
      ∧ Contains e.msg appName ∧ Contains e.msg (ctx.Config.GetString "name")
      ∧ (runAppsCreate env ctx).trace = []
      ∧ (runAppsCreate env ctx).ConfigFile = ctx.ConfigFile := by
  rw [runAppsCreate_conflict_run env ctx appName rest hargs hpos hname hport]
  refine ⟨_, rfl, ?_, ?_, rfl, rfl⟩
  · exact contains_append_right _ _ _ (contains_append_right _ _ _ (contains_append_right _ _ _
      (contains_append_self _ _)))
  · exact contains_append_right _ _ _ (contains_append_self _ _)

/-- C1 at `apps create myapp --name other --port 8080`. -/
theorem runAppsCreate_conflicting_names_witness :
    ("myapp" : String) ≠ "" ∧ ("other" : String) ≠ ""
      ∧ Atoi "8080" ≠ none
      ∧ ∃ e : Error,
        (runAppsCreate (scriptedEnv (answered "x") (answered true))
          (invocation ["myapp"] [("name", "other"), ("port", "8080")] false)).outcome
            = Outcome.ret (some e)
        ∧ Contains e.msg "myapp" ∧ Contains e.msg "other"
        ∧ (runAppsCreate (scriptedEnv (answered "x") (answered true))
          (invocation ["myapp"] [("name", "other"), ("port", "8080")] false)).trace = []
        ∧ (runAppsCreate (scriptedEnv (answered "x") (answered true))
          (invocation ["myapp"] [("name", "other"), ("port", "8080")] false)).ConfigFile = "" :=
  ⟨by decide, by decide, by decide,
    runAppsCreate_conflicting_names (scriptedEnv (answered "x") (answered true))
      (invocation ["myapp"] [("name", "other"), ("port", "8080")] false) "myapp" [] rfl
      (by decide) (by decide) (Or.inr (by decide))⟩

/-- C2: when the `port` flag is non-empty and does not parse as a base-10
integer, `runAppsCreate` returns an error without having performed any step
(empty trace: the organization selector, `CreateApp`, the name prompt and the
configuration write are never reached), whatever the other arguments and flags. -/
theorem runAppsCreate_bad_port_fails_first (env : Env) (ctx : CmdContext)
    (hport : ctx.Config.GetString "port" ≠ "") (hparse : Atoi (ctx.Config.GetString "port") = none) :
    (∃ e : Error, (runAppsCreate env ctx).outcome = Outcome.ret (some e))
      ∧ (runAppsCreate env ctx).trace = []
      ∧ (runAppsCreate env ctx).ConfigFile = ctx.ConfigFile := by
  rw [runAppsCreate_bad_port_run env ctx hport hparse]
  exact ⟨⟨_, rfl⟩, rfl, rfl⟩

/-- C2 at `apps create myapp --name other --org acme --port 80a`. -/
theorem runAppsCreate_bad_port_fails_first_witness :
    ("80a" : String) ≠ "" ∧ Atoi "80a" = none
      ∧ (∃ e : Error,
        (runAppsCreate (scriptedEnv (answered "x") (answered true))
          (invocation ["myapp"] [("name", "other"), ("org", "acme"), ("port", "80a")] true)).outcome
            = Outcome.ret (some e))
      ∧ (runAppsCreate (scriptedEnv (answered "x") (answered true))
          (invocation ["myapp"] [("name", "other"), ("org", "acme"), ("port", "80a")] true)).trace = []
      ∧ (runAppsCreate (scriptedEnv (answered "x") (answered true))
          (invocation ["myapp"] [("name", "other"), ("org", "acme"), ("port", "80a")] true)).ConfigFile
            = "" :=
  ⟨by decide, by decide,
    runAppsCreate_bad_port_fails_first (scriptedEnv (answered "x") (answered true))
      (invocation ["myapp"] [("name", "other"), ("org", "acme"), ("port", "80a")] true)
      (by decide) (by decide)⟩

/-- C3 as stated fails: for `--port abc` the returned error is the fixed text
`-p ports must be numeric`, which does not contain `abc`. -/
theorem runAppsCreate_bad_port_message_omits_value :
    ("abc" : String) ≠ "" ∧ Atoi "abc" = none
      ∧ (runAppsCreate (scriptedEnv (answered "x") (answered true))
          (invocation [] [("port", "abc")] false)).outcome
            = Outcome.ret (some (Errorf "-p ports must be numeric"))
      ∧ ¬ Contains (Errorf "-p ports must be numeric").msg "abc" := by
  decide

/-- C3 (amended): for every non-empty `port` flag value that fails to parse as a
base-10 integer, the error returned by `runAppsCreate` carries the fixed text
`-p ports must be numeric`, the same for every such value; so it names the
supplied value only when that value happens to occur in this fixed text. -/
theorem runAppsCreate_bad_port_fixed_message (env : Env) (ctx : CmdContext)
    (hport : ctx.Config.GetString "port" ≠ "") (hparse : Atoi (ctx.Config.GetString "port") = none) :
    ∃ e : Error, (runAppsCreate env ctx).outcome = Outcome.ret (some e)
      ∧ e.msg = "-p ports must be numeric"
      ∧ (Contains e.msg (ctx.Config.GetString "port")
          ↔ Contains "-p ports must be numeric" (ctx.Config.GetString "port")) := by
  rw [runAppsCreate_bad_port_run env ctx hport hparse]
  exact ⟨_, rfl, rfl, Iff.rfl⟩

/-- C3 (amended) at `apps create --port 8o8o`. -/
theorem runAppsCreate_bad_port_fixed_message_witness :
    ("8o8o" : String) ≠ "" ∧ Atoi "8o8o" = none
      ∧ ∃ e : Error,
        (runAppsCreate (scriptedEnv (answered "x") (answered true))
          (invocation [] [("port", "8o8o")] false)).outcome = Outcome.ret (some e)
        ∧ e.msg = "-p ports must be numeric"
        ∧ (Contains e.msg "8o8o" ↔ Contains "-p ports must be numeric" "8o8o") :=
  ⟨by decide, by decide,
    runAppsCreate_bad_port_fixed_message (scriptedEnv (answered "x") (answered true))
      (invocation [] [("port", "8o8o")] false) (by decide) (by decide)⟩

/-! ## The confirmation gate of `destroy` -/

/-- C4: for `runDestroyApp` with app name `n`: with `yes` set no prompt is shown
and `DeleteApp` is called exactly once, with `n`; without `yes` exactly one
prompt is shown (the confirmation `Destroy app n?`), and `DeleteApp` is called,
exactly once and with `n`, when the stored answer is yes, while for any other
answer no `DeleteApp` call is made and the command returns nil. Whenever
`DeleteApp` is called its result is the command's result. -/
theorem runDestroyApp_confirmation_gate (env : Env) (ctx : CmdContext) (n : String)
    (rest : List String) (hargs : ctx.Args = n :: rest) :
    (ctx.Config.GetBool "yes" = true →
        (runDestroyApp env ctx).trace.filter Event.isPrompt = []
        ∧ (runDestroyApp env ctx).trace.filter Event.isDelete = [Event.DeleteApp n]
        ∧ (runDestroyApp env ctx).outcome = Outcome.ret (env.DeleteApp n))
    ∧ (ctx.Config.GetBool "yes" = false →
        (runDestroyApp env ctx).trace.filter Event.isPrompt
            = [Event.askConfirm ("Destroy app " ++ n ++ "?")]
        ∧ ((env.askConfirm ("Destroy app " ++ n ++ "?")).answer = some true →
            (runDestroyApp env ctx).trace.filter Event.isDelete = [Event.DeleteApp n]
            ∧ (runDestroyApp env ctx).outcome = Outcome.ret (env.DeleteApp n))
        ∧ ((env.askConfirm ("Destroy app " ++ n ++ "?")).answer ≠ some true →
            (runDestroyApp env ctx).trace.filter Event.isDelete = []
            ∧ (runDestroyApp env ctx).outcome = Outcome.ret none)) := by
  refine ⟨fun hyes => ?_, fun hno => ⟨?_, fun hans => ?_, fun hans => ?_⟩⟩
  · cases hd : env.DeleteApp n <;>
      simp [runDestroyApp, runDestroyApp.delete, hargs, hyes, hd, Event.isPrompt, Event.isDelete]
  · cases ha : (env.askConfirm ("Destroy app " ++ n ++ "?")).answer with
    | none => simp [runDestroyApp, hargs, hno, ha, Event.isPrompt]
    | some b =>
      cases b <;> cases hd : env.DeleteApp n <;>
        simp [runDestroyApp, runDestroyApp.delete, hargs, hno, ha, hd, Event.isPrompt]
  · cases hd : env.DeleteApp n <;>
      simp [runDestroyApp, runDestroyApp.delete, hargs, hno, hans, hd, Event.isDelete]
  · cases ha : (env.askConfirm ("Destroy app " ++ n ++ "?")).answer with
    | none => simp [runDestroyApp, hargs, hno, ha, Event.isDelete]
    | some b =>
      cases b
      · simp [runDestroyApp, hargs, hno, ha, Event.isDelete]
      · exact absurd ha hans

/-- C4 at `apps destroy myapp` answered yes, answered no, and run with `-y`. -/
theorem runDestroyApp_confirmation_gate_witness :
    (invocation ["myapp"] [] false).Args = ["myapp"]
      ∧ (runDestroyApp (scriptedEnv (answered "x") (answered true))
          (invocation ["myapp"] [] false)).trace.filter Event.isDelete = [Event.DeleteApp "myapp"]
      ∧ ((runDestroyApp (scriptedEnv (answered "x") (answered false))
          (invocation ["myapp"] [] false)).trace.filter Event.isDelete = []
        ∧ (runDestroyApp (scriptedEnv (answered "x") (answered false))
          (invocation ["myapp"] [] false)).outcome = Outcome.ret none)
      ∧ (runDestroyApp (scriptedEnv (answered "x") (answered false))
          (invocation ["myapp"] [] true)).trace.filter Event.isPrompt = [] :=
  ⟨rfl,
    (((runDestroyApp_confirmation_gate (scriptedEnv (answered "x") (answered true))
      (invocation ["myapp"] [] false) "myapp" [] rfl).2 rfl).2.1 rfl).1,
    ((runDestroyApp_confirmation_gate (scriptedEnv (answered "x") (answered false))
      (invocation ["myapp"] [] false) "myapp" [] rfl).2 rfl).2.2 (by decide),
    ((runDestroyApp_confirmation_gate (scriptedEnv (answered "x") (answered false))
      (invocation ["myapp"] [] true) "myapp" [] rfl).1 rfl).1⟩

/-! ## Organization resolution -/

/-- C5: when organization resolution fails (the selector returns an error that
is not a cancellation, or returns no organization even with no error), neither
command issues its mutation. In `create` the trace holds no `CreateApp` call and
no configuration write, and once the selector has been invoked the command
returns the error `Error setting organization: ...`. In `move` the selector call
is the only step (no `GetApp`, no `MoveApp`) and the command returns that error. -/
theorem organization_failure_blocks_mutation (env : Env) (ctx : CmdContext)
    (hfail : OrgResolutionFails (env.selectOrganization (ctx.Config.GetString "org"))) :
    ((∀ ev ∈ (runAppsCreate env ctx).trace, ev.isCreate = false ∧ ev.isWrite = false)
      ∧ (Event.selectOrganization (ctx.Config.GetString "org") ∈ (runAppsCreate env ctx).trace →
          (runAppsCreate env ctx).outcome
            = Outcome.ret (some (Errorf ("Error setting organization: "
                ++ fmtErr (env.selectOrganization (ctx.Config.GetString "org")).2)))))
    ∧ (∀ (n : String) (rest : List String), ctx.Args = n :: rest →
        (runAppsMove env ctx).trace = [Event.selectOrganization (ctx.Config.GetString "org")]
        ∧ (runAppsMove env ctx).trace.filter Event.isGet = []
        ∧ (runAppsMove env ctx).trace.filter Event.isMove = []
        ∧ (runAppsMove env ctx).outcome
            = Outcome.ret (some (Errorf ("Error setting organization: "
                ++ fmtErr (env.selectOrganization (ctx.Config.GetString "org")).2)))) := by
  refine ⟨?_, ?_⟩
  · rcases runAppsCreate_stages env ctx with ⟨e, h⟩ | ⟨h, -⟩ | ⟨p, name, tr, h, htr⟩
    · simp [h]
    · simp [h, Event.isCreate, Event.isWrite]
    · rw [h, create_stage_of_failed_resolution _ _ _ _ _ _ _ hfail]
      rcases htr with ⟨htr, -⟩ | ⟨s, htr⟩ <;> simp [htr, Event.isCreate, Event.isWrite]
  · intro n rest hargs
    rcases hfail with ⟨e, he, hi⟩ | ⟨ho, he⟩
    · have hi2 : e.interrupt = false := by simpa [isInterrupt] using hi
      simp [runAppsMove, hargs, he, isInterrupt, hi2, Event.isGet, Event.isMove]
    · simp [runAppsMove, hargs, he, ho, isInterrupt, Event.isGet, Event.isMove]

/-- C5 at `apps move myapp --org nope -y` and `apps create myapp --org nope`, a
slug the scripted selector does not know. -/
theorem organization_failure_blocks_mutation_witness :
    OrgResolutionFails ((scriptedEnv (answered "x") (answered true)).selectOrganization
        ((invocation ["myapp"] [("org", "nope")] true).Config.GetString "org"))
      ∧ (runAppsMove (scriptedEnv (answered "x") (answered true))
          (invocation ["myapp"] [("org", "nope")] true)).trace.filter Event.isMove = []
      ∧ Event.selectOrganization "nope"
          ∈ (runAppsCreate (scriptedEnv (answered "x") (answered true))
              (invocation ["myapp"] [("org", "nope")] false)).trace
      ∧ (runAppsCreate (scriptedEnv (answered "x") (answered true))
          (invocation ["myapp"] [("org", "nope")] false)).outcome
            = Outcome.ret (some (Errorf "Error setting organization: %!s(<nil>)")) :=
  ⟨Or.inr ⟨rfl, rfl⟩,
    ((organization_failure_blocks_mutation (scriptedEnv (answered "x") (answered true))
      (invocation ["myapp"] [("org", "nope")] true) (Or.inr ⟨rfl, rfl⟩)).2 "myapp" [] rfl).2.2.1,
    by decide,
    (organization_failure_blocks_mutation (scriptedEnv (answered "x") (answered true))
      (invocation ["myapp"] [("org", "nope")] false) (Or.inr ⟨rfl, rfl⟩)).1.2 (by decide)⟩

/-! ## Cancellation -/

/-- C6: a user interrupt at an interactive prompt makes the command return nil
with no mutation (no `CreateApp`, `MoveApp` or `DeleteApp` call, no
configuration write) and `ctx.ConfigFile` unchanged. This holds for the name
prompt of `create`, for the organization selection of `create` and of `move`,
and for the confirmation prompts of `move` and `destroy` (an interrupted
confirmation stores no answer). -/
theorem interrupt_is_clean_noop (env : Env) (ctx : CmdContext) :
    (Event.askInput "App Name (leave blank to use an auto-generated name)"
          ∈ (runAppsCreate env ctx).trace →
        isInterrupt (env.askInput "App Name (leave blank to use an auto-generated name)").err
          = true →
        (runAppsCreate env ctx).outcome = Outcome.ret none
        ∧ (∀ ev ∈ (runAppsCreate env ctx).trace, ev.isMutation = false)
        ∧ (runAppsCreate env ctx).ConfigFile = ctx.ConfigFile)
    ∧ (Event.selectOrganization (ctx.Config.GetString "org") ∈ (runAppsCreate env ctx).trace →
        isInterrupt (env.selectOrganization (ctx.Config.GetString "org")).2 = true →
        (runAppsCreate env ctx).outcome = Outcome.ret none
        ∧ (∀ ev ∈ (runAppsCreate env ctx).trace, ev.isMutation = false)
        ∧ (runAppsCreate env ctx).ConfigFile = ctx.ConfigFile)
    ∧ (Event.selectOrganization (ctx.Config.GetString "org") ∈ (runAppsMove env ctx).trace →
        isInterrupt (env.selectOrganization (ctx.Config.GetString "org")).2 = true →
        (runAppsMove env ctx).outcome = Outcome.ret none
        ∧ (∀ ev ∈ (runAppsMove env ctx).trace, ev.isMutation = false)
        ∧ (runAppsMove env ctx).ConfigFile = ctx.ConfigFile)
    ∧ (∀ message : String, Event.askConfirm message ∈ (runAppsMove env ctx).trace →
        (env.askConfirm message).interrupted →
        (runAppsMove env ctx).outcome = Outcome.ret none
        ∧ (∀ ev ∈ (runAppsMove env ctx).trace, ev.isMutation = false)
        ∧ (runAppsMove env ctx).ConfigFile = ctx.ConfigFile)
    ∧ (∀ message : String, Event.askConfirm message ∈ (runDestroyApp env ctx).trace →
        (env.askConfirm message).interrupted →
        (runDestroyApp env ctx).outcome = Outcome.ret none
        ∧ (∀ ev ∈ (runDestroyApp env ctx).trace, ev.isMutation = false)
        ∧ (runDestroyApp env ctx).ConfigFile = ctx.ConfigFile) := by
  refine ⟨?_, ?_, ?_, ?_, ?_⟩
  · intro hmem hint
    rcases runAppsCreate_stages env ctx with ⟨e, h⟩ | ⟨h, -⟩ | ⟨p, name, tr, h, htr⟩
    · simp [h] at hmem
    · simp [h, Event.isMutation]
    · rcases htr with ⟨-, hni⟩ | ⟨s, htr⟩
      · rw [hint] at hni
        exact absurd hni (by decide)
      · rw [h] at hmem
        have := create_stage_prompt_free env ctx _ _ p name tr _ hmem rfl
        simp [htr] at this
  · intro hmem hint
    rcases runAppsCreate_stages env ctx with ⟨e, h⟩ | ⟨h, -⟩ | ⟨p, name, tr, h, htr⟩
    · simp [h] at hmem
    · simp [h] at hmem
    · rw [h, create_stage_of_cancelled_selection _ _ _ _ _ _ _ hint]
      rcases htr with ⟨htr, -⟩ | ⟨s, htr⟩ <;> simp [htr, Event.isMutation]
  · intro hmem hint
    cases hargs : ctx.Args with
    | nil => simp [runAppsMove, hargs] at hmem
    | cons n rest => simp [runAppsMove, hargs, hint, Event.isMutation]
  · rintro message hmem ⟨hans, -⟩
    cases hargs : ctx.Args with
    | nil => simp [runAppsMove, hargs] at hmem
    | cons n rest =>
      rcases hsel : env.selectOrganization (ctx.Config.GetString "org") with ⟨org, err⟩
      cases hi : isInterrupt err with
      | true => simp [runAppsMove, hargs, hsel, hi] at hmem
      | false =>
        cases err with
        | some e => simp [runAppsMove, hargs, hsel, hi] at hmem
        | none =>
          cases org with
          | none => simp [runAppsMove, hargs, hsel, hi] at hmem
          | some o =>
            rcases hget : env.GetApp n with ⟨app, gerr⟩
            cases gerr with
            | some e => simp [runAppsMove, hargs, hsel, hi, hget] at hmem
            | none =>
              cases hyes : ctx.Config.GetBool "yes" with
              | true =>
                cases hmv : (env.MoveApp n o.ID).2 <;>
                  simp [runAppsMove, runAppsMove.move, hargs, hsel, hi, hget, hyes, hmv] at hmem
              | false =>
                cases app with
                | none => simp [runAppsMove, hargs, hsel, hi, hget, hyes] at hmem
                | some a =>
                  cases hans2 : (env.askConfirm ("Move " ++ n ++ " from " ++ a.Organization.Slug
                      ++ " to " ++ o.Slug ++ "?")).answer with
                  | none =>
                    simp [runAppsMove, hargs, hsel, hi, hget, hyes, hans2, Event.isMutation]
                  | some b =>
                    cases b with
                    | false =>
                      simp [runAppsMove, hargs, hsel, hi, hget, hyes, hans2, Event.isMutation]
                    | true =>
                      exfalso
                      cases hmv : (env.MoveApp n o.ID).2 <;>
                        simp [runAppsMove, runAppsMove.move, hargs, hsel, hi, hget, hyes, hans2,
                          hmv] at hmem <;>
                        · subst hmem
                          rw [hans] at hans2
                          exact absurd hans2 (by simp)
  · rintro message hmem ⟨hans, -⟩
    cases hargs : ctx.Args with
    | nil => simp [runDestroyApp, hargs] at hmem
    | cons n rest =>
      cases hyes : ctx.Config.GetBool "yes" with
      | true =>
        cases hd : env.DeleteApp n <;>
          simp [runDestroyApp, runDestroyApp.delete, hargs, hyes, hd] at hmem
      | false =>
        cases hans2 : (env.askConfirm ("Destroy app " ++ n ++ "?")).answer with
        | none => simp [runDestroyApp, hargs, hyes, hans2, Event.isMutation]
        | some b =>
          cases b with
          | false => simp [runDestroyApp, hargs, hyes, hans2, Event.isMutation]
          | true =>
            exfalso
            cases hd : env.DeleteApp n <;>
              simp [runDestroyApp, runDestroyApp.delete, hargs, hyes, hans2, hd] at hmem <;>
              · subst hmem
                rw [hans] at hans2
                exact absurd hans2 (by simp)

/-- C6 at each of the five prompts: `apps create` interrupted at its name prompt,
`apps create myapp` and `apps move myapp` interrupted at the organization
selection, `apps move myapp --org other` and `apps destroy myapp` interrupted at
the confirmation prompt. Each prompt is reached and each run returns nil. -/
theorem interrupt_is_clean_noop_witness :
    (Event.askInput "App Name (leave blank to use an auto-generated name)"
        ∈ (runAppsCreate (scriptedEnv (interrupted String) (interrupted Bool))
            (invocation [] [] false)).trace
      ∧ (runAppsCreate (scriptedEnv (interrupted String) (interrupted Bool))
            (invocation [] [] false)).outcome = Outcome.ret none)
    ∧ (Event.selectOrganization ""
        ∈ (runAppsCreate (cancellingEnv (answered "x") (answered true))
            (invocation ["myapp"] [] false)).trace
      ∧ (runAppsCreate (cancellingEnv (answered "x") (answered true))
            (invocation ["myapp"] [] false)).outcome = Outcome.ret none)
    ∧ (Event.selectOrganization ""
        ∈ (runAppsMove (cancellingEnv (answered "x") (answered true))
            (invocation ["myapp"] [] false)).trace
      ∧ (runAppsMove (cancellingEnv (answered "x") (answered true))
            (invocation ["myapp"] [] false)).outcome = Outcome.ret none)
    ∧ (Event.askConfirm "Move myapp from acme to other?"
        ∈ (runAppsMove (scriptedEnv (answered "x") (interrupted Bool))
            (invocation ["myapp"] [("org", "other")] false)).trace
      ∧ (runAppsMove (scriptedEnv (answered "x") (interrupted Bool))
            (invocation ["myapp"] [("org", "other")] false)).outcome = Outcome.ret none)
    ∧ (Event.askConfirm "Destroy app myapp?"
        ∈ (runDestroyApp (scriptedEnv (interrupted String) (interrupted Bool))
            (invocation ["myapp"] [] false)).trace
      ∧ (runDestroyApp (scriptedEnv (interrupted String) (interrupted Bool))
            (invocation ["myapp"] [] false)).outcome = Outcome.ret none) :=
  ⟨⟨by decide, ((interrupt_is_clean_noop (scriptedEnv (interrupted String) (interrupted Bool))
      (invocation [] [] false)).1 (by decide) rfl).1⟩,
    ⟨by decide, ((interrupt_is_clean_noop (cancellingEnv (answered "x") (answered true))
      (invocation ["myapp"] [] false)).2.1 (by decide) rfl).1⟩,
    ⟨by decide, ((interrupt_is_clean_noop (cancellingEnv (answered "x") (answered true))
      (invocation ["myapp"] [] false)).2.2.1 (by decide) rfl).1⟩,
    ⟨by decide, ((interrupt_is_clean_noop (scriptedEnv (answered "x") (interrupted Bool))
      (invocation ["myapp"] [("org", "other")] false)).2.2.2.1 "Move myapp from acme to other?"
      (by decide) ⟨rfl, rfl⟩).1⟩,
    ⟨by decide, ((interrupt_is_clean_noop (scriptedEnv (interrupted String) (interrupted Bool))
      (invocation ["myapp"] [] false)).2.2.2.2 "Destroy app myapp?" (by decide) ⟨rfl, rfl⟩).1⟩⟩

/-! ## The success path of `create` -/

/-- C7: when validation passes (numeric or empty port, at most one of the
positional name and the `name` flag, name prompt not interrupted), the selector
resolves `org`, and `CreateApp`, rendering and path resolution succeed, then
`CreateApp` is called exactly once, with the resolved name and `org.ID`; exactly
one configuration is written, as the last step; its `AppName` and `Definition`
are those of the application `CreateApp` returned, its internal port is the
parsed `port` value exactly when the `port` flag is non-empty, its build
descriptor holds the `builder` flag exactly when that flag is non-empty; the
command returns what the write step returned, and `ctx.ConfigFile` ends as the
path written. -/
theorem runAppsCreate_success (env : Env) (ctx : CmdContext) (p : Int) (org : Organization)
    (app : App)
    (hport : ctx.Config.GetString "port" ≠ "" → Atoi (ctx.Config.GetString "port") = some p)
    (hone : ctx.Config.GetString "name" = "" ∨ runAppsCreate.appName ctx.Args = "")
    (hprompt : ctx.Config.GetString "name" = "" → runAppsCreate.appName ctx.Args = "" →
      isInterrupt (env.askInput "App Name (leave blank to use an auto-generated name)").err
        = false)
    (hsel : env.selectOrganization (ctx.Config.GetString "org") = (some org, none))
    (hcreate : env.CreateApp
        (if ctx.Config.GetString "name" ≠ "" then ctx.Config.GetString "name"
          else if runAppsCreate.appName ctx.Args ≠ "" then runAppsCreate.appName ctx.Args
          else (env.askInput "App Name (leave blank to use an auto-generated name)").answer.getD "")
        org.ID = (some app, none))
    (hrender : env.RenderEx app = none)
    (hpath : ctx.ConfigFile = "" → (env.ResolveConfigFileFromPath ctx.WorkingDir).2 = none) :
    (runAppsCreate env ctx).trace.filter Event.isCreate
        = [Event.CreateApp
            (if ctx.Config.GetString "name" ≠ "" then ctx.Config.GetString "name"
              else if runAppsCreate.appName ctx.Args ≠ "" then runAppsCreate.appName ctx.Args
              else (env.askInput
                "App Name (leave blank to use an auto-generated name)").answer.getD "")
            org.ID]
    ∧ ∃ (cfg : AppConfig) (path : String),
        (runAppsCreate env ctx).trace.filter Event.isWrite = [Event.writeAppConfig path cfg]
        ∧ (∃ pre : List Event, (runAppsCreate env ctx).trace = pre ++ [Event.writeAppConfig path cfg])
        ∧ (runAppsCreate env ctx).outcome = Outcome.ret (env.writeAppConfig path cfg)
        ∧ (runAppsCreate env ctx).ConfigFile = path
        ∧ path = (if ctx.ConfigFile = "" then (env.ResolveConfigFileFromPath ctx.WorkingDir).1
            else ctx.ConfigFile)
        ∧ cfg.AppName = app.Name
        ∧ cfg.Definition = app.Config.Definition
        ∧ cfg.InternalPort = (if ctx.Config.GetString "port" ≠ "" then some p else none)
        ∧ cfg.Build = (if ctx.Config.GetString "builder" ≠ "" then
            some ⟨ctx.Config.GetString "builder"⟩ else none) := by
  have hport2 : (if ctx.Config.GetString "port" ≠ "" then Atoi (ctx.Config.GetString "port")
      else some 0) = some (if ctx.Config.GetString "port" ≠ "" then p else 0) := by
    by_cases h : ctx.Config.GetString "port" = ""
    · simp [h]
    · simp [h, hport h]
  have hstage : ∃ tr : List Event, tr.filter Event.isCreate = [] ∧ tr.filter Event.isWrite = []
      ∧ runAppsCreate env ctx = runAppsCreate.create env ctx (runAppsCreate.newAppConfig ctx)
          (ctx.Config.GetString "port") (if ctx.Config.GetString "port" ≠ "" then p else 0)
          (if ctx.Config.GetString "name" ≠ "" then ctx.Config.GetString "name"
            else if runAppsCreate.appName ctx.Args ≠ "" then runAppsCreate.appName ctx.Args
            else (env.askInput
              "App Name (leave blank to use an auto-generated name)").answer.getD "") tr := by
    by_cases hflag : ctx.Config.GetString "name" = "" <;>
      by_cases hpos : runAppsCreate.appName ctx.Args = ""
    · refine ⟨[Event.askInput "App Name (leave blank to use an auto-generated name)"],
        by simp [Event.isCreate], by simp [Event.isWrite], ?_⟩
      rw [runAppsCreate_prompted_run env ctx _ hport2 hflag hpos (hprompt hflag hpos)]
      simp [hflag, hpos]
    · refine ⟨[Event.print ("Selected App Name: "
        ++ (if ctx.Config.GetString "name" = "" then runAppsCreate.appName ctx.Args
          else ctx.Config.GetString "name") ++ "\n")],
        by simp [Event.isCreate], by simp [Event.isWrite], ?_⟩
      rw [runAppsCreate_named_run env ctx _ hport2 hone (fun h => hpos h.2)]
      simp [hflag, hpos]
    · refine ⟨[Event.print ("Selected App Name: "
        ++ (if ctx.Config.GetString "name" = "" then runAppsCreate.appName ctx.Args
          else ctx.Config.GetString "name") ++ "\n")],
        by simp [Event.isCreate], by simp [Event.isWrite], ?_⟩
      rw [runAppsCreate_named_run env ctx _ hport2 hone (fun h => hflag h.1)]
      simp [hflag]
    · exact absurd hone (by simp [hflag, hpos])
  obtain ⟨tr, htc, htw, hrun⟩ := hstage
  rw [hrun]
  have hcs : ∀ name : String, env.CreateApp name org.ID = (some app, none) →
      runAppsCreate.create env ctx (runAppsCreate.newAppConfig ctx) (ctx.Config.GetString "port")
          (if ctx.Config.GetString "port" ≠ "" then p else 0) name tr
        = runAppsCreate.persist env ctx (runAppsCreate.newAppConfig ctx)
            (ctx.Config.GetString "port") (if ctx.Config.GetString "port" ≠ "" then p else 0) app
            (tr ++ [Event.selectOrganization (ctx.Config.GetString "org"),
              Event.CreateApp name org.ID]) := by
    intro name hc
    simp [runAppsCreate.create, hsel, hc, isInterrupt]
  rw [hcs _ hcreate]
  rcases persist_stage_shape env ctx (runAppsCreate.newAppConfig ctx) (ctx.Config.GetString "port")
      (if ctx.Config.GetString "port" ≠ "" then p else 0) app
      (tr ++ [Event.selectOrganization (ctx.Config.GetString "org"),
        Event.CreateApp (if ctx.Config.GetString "name" ≠ "" then ctx.Config.GetString "name"
          else if runAppsCreate.appName ctx.Args ≠ "" then runAppsCreate.appName ctx.Args
          else (env.askInput
            "App Name (leave blank to use an auto-generated name)").answer.getD "") org.ID]) with
    ⟨mid, e, -, hbad, -⟩ | ⟨mid, h, -, -, hq⟩
  · rcases hbad with hb | ⟨hcf, hb⟩
    · rw [hrender] at hb
      exact absurd hb (by simp)
    · rw [hpath hcf] at hb
      exact absurd hb (by simp)
  · obtain ⟨hqc, hqw⟩ := filter_quiet mid (fun ev hev => (hq ev hev).1)
    rw [h]
    refine ⟨?_, _, _, ?_, ⟨_, rfl⟩, rfl, rfl, rfl, rfl, rfl, ?_, ?_⟩
    · simp [List.filter_append, htc, hqc, Event.isCreate, List.filter_cons]
    · simp [List.filter_append, htw, hqw, Event.isWrite, List.filter_cons]
    · by_cases hp : ctx.Config.GetString "port" = "" <;>
        simp [hp, runAppsCreate.newAppConfig, NewAppConfig]
      split <;> rfl
    · by_cases hb : ctx.Config.GetString "builder" = "" <;>
        simp [hb, runAppsCreate.newAppConfig, NewAppConfig]

/-- C7 at `apps create myapp --org acme --port 8080`: one `CreateApp("myapp",
"acme-org-id")` call and one written configuration, with `AppName` `myapp` and
internal port 8080, and the command returns nil. -/
theorem runAppsCreate_success_witness :
    Atoi "8080" = some 8080
      ∧ (scriptedEnv (answered "x") (answered true)).selectOrganization "acme"
          = (some ⟨"acme-org-id", "acme"⟩, none)
      ∧ (runAppsCreate (scriptedEnv (answered "x") (answered true))
          (invocation ["myapp"] [("org", "acme"), ("port", "8080")] false)).trace.filter
            Event.isCreate = [Event.CreateApp "myapp" "acme-org-id"]
      ∧ ∃ (cfg : AppConfig) (path : String),
          (runAppsCreate (scriptedEnv (answered "x") (answered true))
            (invocation ["myapp"] [("org", "acme"), ("port", "8080")] false)).trace.filter
              Event.isWrite = [Event.writeAppConfig path cfg]
          ∧ cfg.AppName = "myapp" ∧ cfg.InternalPort = some 8080
          ∧ (runAppsCreate (scriptedEnv (answered "x") (answered true))
            (invocation ["myapp"] [("org", "acme"), ("port", "8080")] false)).outcome
              = Outcome.ret none := by
  obtain ⟨hc, cfg, path, hw, -, hout, -, -, hn, -, hp, -⟩ :=
    runAppsCreate_success (scriptedEnv (answered "x") (answered true))
      (invocation ["myapp"] [("org", "acme"), ("port", "8080")] false) 8080
      ⟨"acme-org-id", "acme"⟩ ⟨"myapp", "pending", ⟨"acme-org-id", "acme"⟩, ⟨⟨"services"⟩⟩⟩
      (fun _ => by decide) (Or.inl (by decide)) (fun _ h => absurd h (by decide))
      (by decide) (by decide) rfl (fun _ => rfl)
  exact ⟨by decide, by decide, hc, cfg, path, hw, hn, hp, hout⟩

/-! ## Ordering of the remote create and the local write -/

/-- C8: in every run of `runAppsCreate` the configuration write occurs at most
once, and any write step is preceded in the trace by a `CreateApp` call that
returned an application and no error. When the `CreateApp` call of the run
returns an error, the command returns that error, no config path is resolved,
no configuration is written, and `ctx.ConfigFile` is unchanged. -/
theorem runAppsCreate_write_only_after_create (env : Env) (ctx : CmdContext) :
    ((runAppsCreate env ctx).trace.filter Event.isWrite).length ≤ 1
    ∧ (∀ (pre post : List Event) (path : String) (cfg : AppConfig),
        (runAppsCreate env ctx).trace = pre ++ Event.writeAppConfig path cfg :: post →
        ∃ (name orgID : String) (app : App),
          Event.CreateApp name orgID ∈ pre ∧ env.CreateApp name orgID = (some app, none))
    ∧ (∀ (name orgID : String) (e : Error),
        Event.CreateApp name orgID ∈ (runAppsCreate env ctx).trace →
        (env.CreateApp name orgID).2 = some e →
        (runAppsCreate env ctx).outcome = Outcome.ret (some e)
        ∧ (runAppsCreate env ctx).trace.filter Event.isResolve = []
        ∧ (runAppsCreate env ctx).trace.filter Event.isWrite = []
        ∧ (runAppsCreate env ctx).ConfigFile = ctx.ConfigFile) := by
  obtain ⟨pre, hpre, hcase⟩ := runAppsCreate_shape env ctx
  have hprew : ∀ ev ∈ pre, ev.isWrite = false := fun ev h => isWrite_isMutation ev (hpre ev h).1
  have hpreW : pre.filter Event.isWrite = [] := (filter_quiet pre (fun ev h => (hpre ev h).1)).2
  have hpreR : pre.filter Event.isResolve = [] := by
    rw [List.filter_eq_nil_iff]
    intro ev hev
    simp [(hpre ev hev).2]
  have hnoC : ∀ (l : List Event) (n o : String), (∀ ev ∈ l, ev.isMutation = false) →
      Event.CreateApp n o ∈ l → False := by
    intro l n o hl hm
    have := hl _ hm
    simp [Event.isMutation] at this
  have hnoW : ∀ (l : List Event) (pa : String) (c : AppConfig), (∀ ev ∈ l, ev.isMutation = false) →
      Event.writeAppConfig pa c ∈ l → False := by
    intro l pa c hl hm
    have := hl _ hm
    simp [Event.isMutation] at this
  have hpreM : ∀ ev ∈ pre, ev.isMutation = false := fun ev h => (hpre ev h).1
  rcases hcase with ⟨ht, hcf⟩ | ⟨name, orgID, ht, hcf, hout⟩
      | ⟨name, orgID, app, mid, hcr, hmid, ht | ⟨path, cfg, ht⟩⟩
  · refine ⟨by simp [ht, hpreW], ?_, ?_⟩
    · intro pre2 post pa c h
      rw [ht] at h
      exact (hnoW pre pa c hpreM (by rw [h]; simp)).elim
    · intro n o e hm _
      rw [ht] at hm
      exact (hnoC pre n o hpreM hm).elim
  · refine ⟨by simp [ht, hpreW, Event.isWrite], ?_, ?_⟩
    · intro pre2 post pa c h
      rw [ht] at h
      have hm : Event.writeAppConfig pa c ∈ pre ++ [Event.CreateApp name orgID] := by
        rw [h]; simp
      rcases List.mem_append.mp hm with hm | hm
      · exact (hnoW pre pa c hpreM hm).elim
      · simp at hm
    · intro n o e hm he
      rw [ht] at hm
      rcases List.mem_append.mp hm with hm | hm
      · exact (hnoC pre n o hpreM hm).elim
      · simp at hm
        obtain ⟨rfl, rfl⟩ := hm
        rcases hout with ⟨e2, he2, hout⟩ | ⟨hnil, -⟩
        · rw [he] at he2
          cases he2
          exact ⟨hout, by simp [ht, hpreR, Event.isResolve], by simp [ht, hpreW, Event.isWrite],
            hcf⟩
        · rw [hnil] at he
          simp at he
  · have hmidW : mid.filter Event.isWrite = [] := (filter_quiet mid hmid).2
    refine ⟨by simp [ht, hpreW, hmidW, List.filter_cons, Event.isWrite], ?_, ?_⟩
    · intro pre2 post pa c h
      rw [ht] at h
      have hm : Event.writeAppConfig pa c ∈ pre ++ Event.CreateApp name orgID :: mid := by
        rw [h]; simp
      rcases List.mem_append.mp hm with hm | hm
      · exact (hnoW pre pa c hpreM hm).elim
      · simp at hm
        exact (hnoW mid pa c hmid hm).elim
    · intro n o e hm he
      rw [ht] at hm
      rcases List.mem_append.mp hm with hm | hm
      · exact (hnoC pre n o hpreM hm).elim
      · simp at hm
        rcases hm with ⟨rfl, rfl⟩ | hm
        · rw [hcr] at he
          simp at he
        · exact (hnoC mid n o hmid hm).elim
  · have hmidW : mid.filter Event.isWrite = [] := (filter_quiet mid hmid).2
    have hsplit : (runAppsCreate env ctx).trace
        = (pre ++ Event.CreateApp name orgID :: mid) ++ [Event.writeAppConfig path cfg] := by
      rw [ht]; simp
    have hfront : ∀ ev ∈ pre ++ Event.CreateApp name orgID :: mid, ev.isWrite = false := by
      intro ev hev
      rcases List.mem_append.mp hev with hm | hm
      · exact hprew ev hm
      · simp at hm
        rcases hm with rfl | hm
        · rfl
        · exact isWrite_isMutation ev (hmid ev hm)
    refine ⟨by simp [ht, hpreW, hmidW, List.filter_cons, List.filter_append, Event.isWrite],
      ?_, ?_⟩
    · intro pre2 post pa c h
      rw [hsplit] at h
      have := split_at_final_write _ _ hfront pre2 post (Event.writeAppConfig pa c) rfl h
      exact ⟨name, orgID, app, by rw [this]; simp, hcr⟩
    · intro n o e hm he
      rw [ht] at hm
      rcases List.mem_append.mp hm with hm | hm
      · exact (hnoC pre n o hpreM hm).elim
      · simp at hm
        rcases hm with ⟨rfl, rfl⟩ | hm
        · rw [hcr] at he
          simp at he
        · exact (hnoC mid n o hmid hm).elim

/-- C8 at `apps create myapp --org acme` against a control plane that rejects
the create (the command returns the `CreateApp` error and writes nothing), and
at the same command against one that accepts it (the write step comes after the
`CreateApp` call). -/
theorem runAppsCreate_write_only_after_create_witness :
    (Event.CreateApp "myapp" "acme-org-id"
        ∈ (runAppsCreate (rejectingEnv (answered "x") (answered true))
            (invocation ["myapp"] [("org", "acme")] false)).trace
      ∧ (runAppsCreate (rejectingEnv (answered "x") (answered true))
            (invocation ["myapp"] [("org", "acme")] false)).outcome
          = Outcome.ret (some ⟨"Name has already been taken", false⟩)
      ∧ (runAppsCreate (rejectingEnv (answered "x") (answered true))
            (invocation ["myapp"] [("org", "acme")] false)).trace.filter Event.isWrite = [])
    ∧ ((runAppsCreate (scriptedEnv (answered "x") (answered true))
          (invocation ["myapp"] [("org", "acme")] false)).trace
        = [Event.print "Selected App Name: myapp\n", Event.selectOrganization "acme",
            Event.CreateApp "myapp" "acme-org-id", Event.print "New app created\n",
            Event.RenderEx ⟨"myapp", "pending", ⟨"acme-org-id", "acme"⟩, ⟨⟨"services"⟩⟩⟩,
            Event.print "\n", Event.ResolveConfigFileFromPath "/work",
            Event.print "/work/fly.toml\n"]
          ++ Event.writeAppConfig "/work/fly.toml" ⟨"myapp", none, none, ⟨"services"⟩⟩ :: []
      ∧ ∃ (name orgID : String) (app : App),
          Event.CreateApp name orgID
            ∈ [Event.print "Selected App Name: myapp\n", Event.selectOrganization "acme",
                Event.CreateApp "myapp" "acme-org-id", Event.print "New app created\n",
                Event.RenderEx ⟨"myapp", "pending", ⟨"acme-org-id", "acme"⟩, ⟨⟨"services"⟩⟩⟩,
                Event.print "\n", Event.ResolveConfigFileFromPath "/work",
                Event.print "/work/fly.toml\n"]
          ∧ (scriptedEnv (answered "x") (answered true)).CreateApp name orgID = (some app, none)) :=
  ⟨⟨by decide,
    ((runAppsCreate_write_only_after_create (rejectingEnv (answered "x") (answered true))
      (invocation ["myapp"] [("org", "acme")] false)).2.2 "myapp" "acme-org-id"
      ⟨"Name has already been taken", false⟩ (by decide) rfl).1,
    ((runAppsCreate_write_only_after_create (rejectingEnv (answered "x") (answered true))
      (invocation ["myapp"] [("org", "acme")] false)).2.2 "myapp" "acme-org-id"
      ⟨"Name has already been taken", false⟩ (by decide) rfl).2.2.1⟩,
    ⟨by decide,
      (runAppsCreate_write_only_after_create (scriptedEnv (answered "x") (answered true))
        (invocation ["myapp"] [("org", "acme")] false)).2.1 _ [] "/work/fly.toml"
        ⟨"myapp", none, none, ⟨"services"⟩⟩ (by decide)⟩⟩

/-! ## `move` with confirmation skipped -/

/-- C9: for `runAppsMove` with app name `n`, `yes` set and the selector returning
`org`: when `GetApp n` succeeds no prompt is issued, `MoveApp` is called exactly
once, with `(n, org.ID)`, after the `GetApp n` call, and when `MoveApp` succeeds
the command prints the move to `org.Slug` and returns nil; when `GetApp n` fails
the command returns an error and `MoveApp` is never called. -/
theorem runAppsMove_skips_confirmation (env : Env) (ctx : CmdContext) (n : String)
    (rest : List String) (org : Organization) (hargs : ctx.Args = n :: rest)
    (hyes : ctx.Config.GetBool "yes" = true)
    (hsel : env.selectOrganization (ctx.Config.GetString "org") = (some org, none)) :
    ((env.GetApp n).2 = none →
        (runAppsMove env ctx).trace.filter Event.isPrompt = []
        ∧ (runAppsMove env ctx).trace.filter Event.isMove = [Event.MoveApp n org.ID]
        ∧ (∃ pre post : List Event,
            (runAppsMove env ctx).trace = pre ++ Event.MoveApp n org.ID :: post
            ∧ Event.GetApp n ∈ pre)
        ∧ ((env.MoveApp n org.ID).2 = none →
            Event.print ("Successfully moved " ++ n ++ " to " ++ org.Slug ++ "\n")
              ∈ (runAppsMove env ctx).trace
            ∧ (runAppsMove env ctx).outcome = Outcome.ret none))
    ∧ (∀ e : Error, (env.GetApp n).2 = some e →
        (runAppsMove env ctx).outcome = Outcome.ret (some (Wrap e "Error fetching app"))
        ∧ (runAppsMove env ctx).trace.filter Event.isMove = []
        ∧ (runAppsMove env ctx).trace.filter Event.isPrompt = []) := by
  constructor
  · intro hget
    cases hmv : (env.MoveApp n org.ID).2 with
    | none =>
      have hrun : runAppsMove env ctx
          = ⟨[Event.selectOrganization (ctx.Config.GetString "org"), Event.GetApp n,
              Event.MoveApp n org.ID,
              Event.print ("Successfully moved " ++ n ++ " to " ++ org.Slug ++ "\n")],
            Outcome.ret none, ctx.ConfigFile⟩ := by
        simp [runAppsMove, runAppsMove.move, hargs, hyes, hsel, hget, hmv, isInterrupt]
      rw [hrun]
      refine ⟨by simp [Event.isPrompt], by simp [Event.isMove],
        ⟨[Event.selectOrganization (ctx.Config.GetString "org"), Event.GetApp n], _, rfl,
          by simp⟩, fun _ => ⟨by simp, rfl⟩⟩
    | some e =>
      have hrun : runAppsMove env ctx
          = ⟨[Event.selectOrganization (ctx.Config.GetString "org"), Event.GetApp n,
              Event.MoveApp n org.ID],
            Outcome.ret (some (WithMessage e "Failed to move app")), ctx.ConfigFile⟩ := by
        simp [runAppsMove, runAppsMove.move, hargs, hyes, hsel, hget, hmv, isInterrupt]
      rw [hrun]
      refine ⟨by simp [Event.isPrompt], by simp [Event.isMove],
        ⟨[Event.selectOrganization (ctx.Config.GetString "org"), Event.GetApp n], _, rfl,
          by simp⟩, fun h => absurd h (by simp)⟩
  · intro e hget
    have hrun : runAppsMove env ctx
        = ⟨[Event.selectOrganization (ctx.Config.GetString "org"), Event.GetApp n],
          Outcome.ret (some (Wrap e "Error fetching app")), ctx.ConfigFile⟩ := by
      simp [runAppsMove, hargs, hsel, hget, isInterrupt]
    rw [hrun]
    exact ⟨rfl, by simp [Event.isMove], by simp [Event.isPrompt]⟩

/-- C9 at `apps move myapp --org other -y`: exactly one `MoveApp("myapp",
"other-org-id")` and no prompt; and at the same command when `GetApp` fails: no
`MoveApp` call. -/
theorem runAppsMove_skips_confirmation_witness :
    (invocation ["myapp"] [("org", "other")] true).Config.GetBool "yes" = true
      ∧ (scriptedEnv (answered "x") (answered true)).selectOrganization "other"
          = (some ⟨"other-org-id", "other"⟩, none)
      ∧ (runAppsMove (scriptedEnv (answered "x") (answered true))
          (invocation ["myapp"] [("org", "other")] true)).trace.filter Event.isMove
            = [Event.MoveApp "myapp" "other-org-id"]
      ∧ (runAppsMove (scriptedEnv (answered "x") (answered true))
          (invocation ["myapp"] [("org", "other")] true)).trace.filter Event.isPrompt = []
      ∧ (Event.print "Successfully moved myapp to other\n"
          ∈ (runAppsMove (scriptedEnv (answered "x") (answered true))
              (invocation ["myapp"] [("org", "other")] true)).trace
        ∧ (runAppsMove (scriptedEnv (answered "x") (answered true))
              (invocation ["myapp"] [("org", "other")] true)).outcome = Outcome.ret none)
      ∧ (runAppsMove (unknownAppEnv (answered "x") (answered true))
          (invocation ["myapp"] [("org", "other")] true)).trace.filter Event.isMove = [] :=
  ⟨by decide, by decide,
    ((runAppsMove_skips_confirmation (scriptedEnv (answered "x") (answered true))
      (invocation ["myapp"] [("org", "other")] true) "myapp" [] ⟨"other-org-id", "other"⟩ rfl
      (by decide) (by decide)).1 rfl).2.1,
    ((runAppsMove_skips_confirmation (scriptedEnv (answered "x") (answered true))
      (invocation ["myapp"] [("org", "other")] true) "myapp" [] ⟨"other-org-id", "other"⟩ rfl
      (by decide) (by decide)).1 rfl).1,
    ((runAppsMove_skips_confirmation (scriptedEnv (answered "x") (answered true))
      (invocation ["myapp"] [("org", "other")] true) "myapp" [] ⟨"other-org-id", "other"⟩ rfl
      (by decide) (by decide)).1 rfl).2.2.2 rfl,
    ((runAppsMove_skips_confirmation (unknownAppEnv (answered "x") (answered true))
      (invocation ["myapp"] [("org", "other")] true) "myapp" [] ⟨"other-org-id", "other"⟩ rfl
      (by decide) (by decide)).2 ⟨"Could not resolve App", false⟩ rfl).2.1⟩

/-! ## The discarded name-prompt error -/

/-- C10: in `runAppsCreate`, when neither a positional name nor a `name` flag is
given, the port validates, and the name prompt returns an error that is not a
user interrupt, the error is discarded: the run continues with the organization
selection right after the prompt, and if the selector resolves `org` then
`CreateApp` is called, exactly once, with the name the prompt stored (the empty
string if it stored none) and `org.ID`. -/
theorem runAppsCreate_prompt_error_discarded (env : Env) (ctx : CmdContext) (e : Error)
    (hport : ctx.Config.GetString "port" = "" ∨ Atoi (ctx.Config.GetString "port") ≠ none)
    (hflag : ctx.Config.GetString "name" = "") (hpos : runAppsCreate.appName ctx.Args = "")
    (herr : (env.askInput "App Name (leave blank to use an auto-generated name)").err = some e)
    (hni : isInterrupt (some e) = false) :
    (∃ rest : List Event, (runAppsCreate env ctx).trace
        = Event.askInput "App Name (leave blank to use an auto-generated name)"
          :: Event.selectOrganization (ctx.Config.GetString "org") :: rest)
    ∧ (∀ org : Organization,
        env.selectOrganization (ctx.Config.GetString "org") = (some org, none) →
        (runAppsCreate env ctx).trace.filter Event.isCreate
          = [Event.CreateApp
              ((env.askInput
                "App Name (leave blank to use an auto-generated name)").answer.getD "")
              org.ID]) := by
  have hport2 : ∃ p : Int, (if ctx.Config.GetString "port" ≠ "" then
      Atoi (ctx.Config.GetString "port") else some 0) = some p := by
    by_cases h : ctx.Config.GetString "port" = ""
    · exact ⟨0, by simp [h]⟩
    · cases hq : Atoi (ctx.Config.GetString "port") with
      | none => exact absurd hq (hport.resolve_left h)
      | some q => exact ⟨q, by simp [h]⟩
  obtain ⟨p, hp⟩ := hport2
  rw [runAppsCreate_prompted_run env ctx p hp hflag hpos (by rw [herr]; exact hni)]
  rcases create_stage_shape env ctx (runAppsCreate.newAppConfig ctx) (ctx.Config.GetString "port")
      p ((env.askInput "App Name (leave blank to use an auto-generated name)").answer.getD "")
      [Event.askInput "App Name (leave blank to use an auto-generated name)"] with
    ⟨ht, -, hout⟩ | ⟨org, hs, ht, -, -⟩ | ⟨org, app, hs, -, hrun⟩
  · refine ⟨⟨[], by simp [ht]⟩, ?_⟩
    intro org hsel
    rcases hout with ⟨hi, -⟩ | ⟨hf, -⟩
    · simp [hsel, isInterrupt] at hi
    · rcases hf with ⟨e2, he2, -⟩ | ⟨ho, -⟩
      · simp [hsel] at he2
      · simp [hsel] at ho
  · refine ⟨⟨_, by rw [ht]; rfl⟩, ?_⟩
    intro org2 hsel
    rw [hs] at hsel
    cases hsel
    simp [ht, Event.isCreate]
  · rw [hrun]
    rcases persist_stage_shape env ctx (runAppsCreate.newAppConfig ctx)
        (ctx.Config.GetString "port") p app
        ([Event.askInput "App Name (leave blank to use an auto-generated name)"]
          ++ [Event.selectOrganization (ctx.Config.GetString "org"),
            Event.CreateApp ((env.askInput
              "App Name (leave blank to use an auto-generated name)").answer.getD "") org.ID])
      with ⟨mid, e2, h2, -, hq⟩ | ⟨mid, h2, -, -, hq⟩
    · obtain ⟨hqc, -⟩ := filter_quiet mid (fun ev hev => (hq ev hev).1)
      rw [h2]
      refine ⟨⟨_, rfl⟩, ?_⟩
      intro org2 hsel
      rw [hs] at hsel
      cases hsel
      simp [List.filter_append, hqc, Event.isCreate, List.filter_cons]
    · obtain ⟨hqc, -⟩ := filter_quiet mid (fun ev hev => (hq ev hev).1)
      rw [h2]
      refine ⟨⟨_, rfl⟩, ?_⟩
      intro org2 hsel
      rw [hs] at hsel
      cases hsel
      simp [List.filter_append, hqc, Event.isCreate, List.filter_cons]

/-- C10 at `apps create --org acme` with a name prompt that breaks on end of input:
the run goes on and calls `CreateApp` with the empty name. -/
theorem runAppsCreate_prompt_error_discarded_witness :
    ((broken String "EOF").err = some ⟨"EOF", false⟩ ∧ isInterrupt (some ⟨"EOF", false⟩) = false)
      ∧ (runAppsCreate (scriptedEnv (broken String "EOF") (answered true))
          (invocation [] [("org", "acme")] false)).trace.filter Event.isCreate
            = [Event.CreateApp "" "acme-org-id"] :=
  ⟨⟨rfl, rfl⟩,
    (runAppsCreate_prompt_error_discarded (scriptedEnv (broken String "EOF") (answered true))
      (invocation [] [("org", "acme")] false) ⟨"EOF", false⟩ (Or.inl (by decide)) (by decide)
      (by decide) rfl rfl).2 ⟨"acme-org-id", "acme"⟩ (by decide)⟩

end Flyctl
